import Mathlib

/-!
# Shared-memory writer / reader demo (`shared_common.c`, `shared_read.c`, `shared_write.c`)

A shallow embedding of the three translation units.  `main` of `shared_common.c` is linked
against the `setup` / `do_job` pair of one role (`shared_read.c` or `shared_write.c`).

* Bytes are natural numbers, C strings are byte lists read up to the first 0.
* The memory reachable through the global pointer `data` is a byte list (`Mem`): entry `i`
  is `data[i]`, entries past the end of the list read as 0.  The mapped object covers the
  indices below `SHARED_OBJ_SIZE`.
* The libc and POSIX functions the sources call (`strcmp`, `scanf("%s")`, `atoi`, `isspace`,
  `printf`) follow the C standard, `atoi` with the 64-bit `long` and 32-bit `int` of the
  C library on Linux; the results of the operating-system calls are supplied by an
  environment record (`Env`), and every call made by the process is appended to a trace of
  events.
* The operator input is the finite byte list up to the end of input.  The other process
  stores into the shared buffer only while the reader sleeps in its job (`Env.peer`), and it
  may size a still empty object during a job (`Env.peer_sizes`).
* The `while (1)` loop of `main` takes a fuel argument which bounds the number of
  iterations; `Res.running` is the answer when the fuel is used up inside the loop.
* A process may end without an exit status (`Res.killed`): a dereference of `data` while
  the region is not mapped or past the accessible bytes behind it (`SIGSEGV`), a dereference
  of a mapping whose object is still empty (`SIGBUS`), and a `SIGUSR1` that the writer, which
  installs no handler, sends to itself, terminate it.
* Signals from other processes are not part of `main`: the delivery of `SIGUSR1` to the
  reader is a step of the transition system `Step`, whose other steps are the groups of
  statements `main` is composed of.
-/

namespace SharedMem

/-! ## Bytes, C strings and the libc functions used by the sources -/

/-- Bytes of a C string literal (without the terminator). -/
def bytes (s : String) : List Nat := s.toList.map Char.toNat

/-- Decimal rendering used by the `%d` / `%lld` conversions. -/
def dec (n : Nat) : List Nat := (Nat.toDigits 10 n).map Char.toNat

/-- Memory seen through `data`: `data[i]` is entry `i`, missing entries are 0. -/
abbrev Mem := List Nat

/-- `#define SHARED_OBJ_SIZE 255` -/
def SHARED_OBJ_SIZE : Nat := 255

/-- Value of `ENOENT` in `<errno.h>` (2 on Linux, macOS and the BSDs); no statement below
depends on the number. -/
def ENOENT : Nat := 2

/-- The literal `"q"` of the sentinel test. -/
def sentinel : List Nat := bytes "q"

/-- C `isspace` in the "C" locale: space, `\t`, `\n`, `\v`, `\f`, `\r`. -/
def isspace (c : Nat) : Bool := c == 32 || (9 ≤ c && c ≤ 13)

/-- `data[i]` -/
def Mem.byte (m : Mem) (i : Nat) : Nat := m.getD i 0

/-- The null-terminated contents of a buffer: the bytes before the first 0. -/
def cstr (m : Mem) : List Nat := m.takeWhile (fun b => b != 0)

/-- C `strcmp` on two byte sequences, each implicitly followed by zeros: the difference of
the first pair of differing bytes, 0 when both strings end together. -/
def strcmp : List Nat → List Nat → Int
  | [], [] => 0
  | [], b :: _ => - (b : Int)
  | a :: _, [] => (a : Int)
  | a :: as, b :: bs =>
    if a = b then (if a = 0 then 0 else strcmp as bs) else (a : Int) - (b : Int)

/-- The conversion `%s` of `scanf`: skip leading white space, then take the longest run of
non-white-space bytes.  Returns the token (`none` on end of input, where nothing is
stored) and the unread rest of the input. -/
def scanf_s (inp : List Nat) : Option (List Nat) × List Nat :=
  match inp.dropWhile isspace with
  | [] => (none, [])
  | c :: cs =>
    (some (c :: cs.takeWhile (fun b => !isspace b)), cs.dropWhile (fun b => !isspace b))

/-- Indices `data[i]` stored by `scanf("%s", data)` for a token: the token bytes and the
terminator after them.  No field width limits the token. -/
def scanf_indices (tok : List Nat) : List Nat := List.range (tok.length + 1)

/-- Memory after `scanf("%s", data)` has stored a token: the token, a 0, and the old bytes
behind them. -/
def store (m : Mem) (tok : List Nat) : Mem := tok ++ 0 :: m.drop (tok.length + 1)

/-- Memory after a store that was cut off at index `n`: the first `n` bytes of the stored
string, the old bytes from `n` on. -/
def store_upto (m : Mem) (tok : List Nat) (n : Nat) : Mem := (store m tok).take n ++ m.drop n

/-- Value of a run of leading decimal digits. -/
def digits_val : List Nat → Nat → Nat
  | [], acc => acc
  | c :: cs, acc => if 48 ≤ c ∧ c ≤ 57 then digits_val cs (acc * 10 + (c - 48)) else acc

/-- Saturation of `strtol` at the range of a 64-bit `long`. -/
def clamp_long (v : Int) : Int := max (-(2 ^ 63)) (min v (2 ^ 63 - 1))

/-- Conversion of a `long` to `int`: the low 32 bits in two's complement. -/
def to_int (v : Int) : Int := (v + 2 ^ 31) % 2 ^ 32 - 2 ^ 31

/-- C `atoi` as the C library computes it, `(int) strtol(s, NULL, 10)`: optional white
space, optional sign, digits; the value saturates at the range of `long` and is then cut to
`int`. -/
def atoi (s : List Nat) : Int :=
  to_int (clamp_long
    (match s.dropWhile isspace with
     | 45 :: cs => - (digits_val cs 0 : Int)
     | 43 :: cs => (digits_val cs 0 : Int)
     | cs => (digits_val cs 0 : Int)))

/-! ## Processes -/

/-- Which pair of `setup` / `do_job` is linked with `main`. -/
inductive Role
  | reader
  | writer
  deriving DecidableEq, Repr

/-- Signals that terminate a process of this program. -/
inductive Signal
  | SIGSEGV
  | SIGBUS
  | SIGUSR1
  deriving DecidableEq, Repr

/-- Calls observed on a run, with their results. -/
inductive Event
  /-- output written by `printf` -/
  | printf (out : List Nat)
  /-- `signal(SIGUSR1, print_data)`; `false` is `SIG_ERR` -/
  | signal (ok : Bool)
  /-- `shm_open`; `false` is the result -1 -/
  | shm_open (ok : Bool)
  /-- `fstat`; `none` is the result -1, otherwise the reported `st_size` -/
  | fstat (size : Option Nat)
  /-- `ftruncate(fd, SHARED_OBJ_SIZE)`; `some e` is the result -1 with `errno = e` -/
  | ftruncate (err : Option Nat)
  /-- `mmap`; `false` is `MAP_FAILED` -/
  | mmap (ok : Bool)
  /-- `close(fd)` -/
  | close
  /-- `usleep(100000000)` -/
  | usleep
  /-- `scanf("%s", data)` with the number of bytes it stored through `data` -/
  | scanf (stored : Nat)
  /-- `kill(reader_pid, SIGUSR1)`; `false` is the result -1 -/
  | kill (pid : Int) (ok : Bool)
  /-- `strcmp(data, "q")` with its result -/
  | strcmp (r : Int)
  /-- `munmap(data, 255)`; `false` is a nonzero result -/
  | munmap (ok : Bool)
  /-- `shm_unlink`; `some e` is the result -1 with `errno = e` -/
  | shm_unlink (err : Option Nat)
  deriving DecidableEq, Repr

/-- Results the environment gives to the calls of one process, and what else it decides. -/
structure Env where
  /-- `argc` of `main` -/
  argc : Nat
  /-- the string `argv[1]` (used only when `argc > 1`) -/
  argv1 : List Nat
  /-- result of `getpid()`: the process identifier of this process -/
  pid : Nat
  /-- process group of this process -/
  pgid : Nat
  /-- whether `kill(-1, sig)` also signals the caller (it does not on Linux) -/
  broadcast_self : Bool
  /-- `signal(SIGUSR1, print_data) != SIG_ERR` -/
  signal_ok : Bool
  /-- `shm_open(...) != -1` -/
  shm_open_ok : Bool
  /-- first `fstat(...) != -1` (line 36) -/
  fstat_ok : Bool
  /-- `none`: `ftruncate` succeeds, `some e`: it returns -1 with `errno = e` -/
  ftruncate_err : Option Nat
  /-- second `fstat(...) != -1` (line 42) -/
  refstat_ok : Bool
  /-- `mmap(...) != MAP_FAILED` -/
  mmap_ok : Bool
  /-- number of bytes behind the 255 of the object that the process can access without a
  fault once a non-empty object is mapped: the rest of the last page of the mapping and the
  mappings that happen to follow it -/
  slack : Nat
  /-- `munmap(...) == 0` -/
  munmap_ok : Bool
  /-- `none`: `shm_unlink` succeeds, `some e`: it returns -1 with `errno = e` -/
  shm_unlink_err : Option Nat
  /-- result of the `kill` issued by the job numbered `n`, when it is aimed at others -/
  kill_ok : Nat → Bool
  /-- what the other process stores into the shared buffer while the reader sleeps in the
  job numbered `n` -/
  peer : Nat → Mem → Mem
  /-- whether the other process, running the same `main`, opens the object during the job
  numbered `n` and sizes it if it is still empty -/
  peer_sizes : Nat → Bool

/-- State of one process together with the shared object it works on. -/
structure Proc where
  /-- calls made so far, oldest first -/
  trace : List Event
  /-- size of the object named `SHARED_OBJ_NAME`; `none` when the name does not resolve -/
  obj : Option Nat
  /-- bytes reachable through the global pointer `data` -/
  data : Mem
  /-- unread operator input -/
  stdin : List Nat
  /-- the writer's `static pid_t reader_pid` -/
  reader_pid : Int
  /-- `print_data` is installed as handler of `SIGUSR1` -/
  handler : Bool
  /-- the region is mapped: `mmap` has succeeded and `munmap` has not been called since -/
  mapped : Bool
  /-- number of dereferences of `data` made while the region was not mapped -/
  faults : Nat
  /-- number of `do_job` invocations so far -/
  jobs : Nat
  deriving DecidableEq

/-- State at process start. -/
def Proc.start (obj : Option Nat) (mem : Mem) (stdin : List Nat) : Proc :=
  { trace := [], obj := obj, data := mem, stdin := stdin, reader_pid := 0,
    handler := false, mapped := false, faults := 0, jobs := 0 }

/-- Append a call to the trace. -/
def Proc.log (p : Proc) (e : Event) : Proc := { p with trace := p.trace ++ [e] }

/-- Outcome of a piece of the program. -/
inductive Res
  /-- control reaches the next statement -/
  | cont (p : Proc)
  /-- the process has ended with this exit status -/
  | exit (code : Nat) (p : Proc)
  /-- the fuel ran out inside the `while (1)` loop: the driver is still RUNNING -/
  | running (p : Proc)
  /-- the process was terminated by a signal -/
  | killed (sig : Signal) (p : Proc)
  deriving DecidableEq

/-- Process state of an outcome. -/
def Res.proc : Res → Proc
  | .cont p => p
  | .exit _ p => p
  | .running p => p
  | .killed _ p => p

/-- Exit status of an outcome, if the process has exited. -/
def Res.code : Res → Option Nat
  | .exit c _ => some c
  | _ => none

/-- Sequencing: go on only when control reaches the next statement. -/
def Res.bind (r : Res) (f : Proc → Res) : Res :=
  match r with
  | .cont p => f p
  | .exit c p => .exit c p
  | .running p => .running p
  | .killed s p => .killed s p

/-- Number of bytes from `data` on that can be accessed once a non-empty object is mapped. -/
def reach (env : Env) : Nat := SHARED_OBJ_SIZE + env.slack

/-- A dereference of `data` near the start of the region.  Outside the mapped window the
process gets `SIGSEGV`; inside it, while the object is still empty (size 0, `obj` being the
object the mapping refers to), every page of the mapping lies behind the end of the object
and the process gets `SIGBUS`. -/
def Proc.access (p : Proc) : Res :=
  if p.mapped then
    if p.obj.getD 0 = 0 then .killed .SIGBUS p else .cont p
  else .killed .SIGSEGV { p with faults := p.faults + 1 }

/-! ## `shared_common.c` -/

/-- Output of `printf("ERROR: %s\n", msg)`. -/
def error_line (msg : List Nat) : List Nat := bytes "ERROR: " ++ msg ++ [10]

/-- `die(code, msg)`: print `ERROR: msg` and exit with `code`. -/
def die (code : Nat) (msg : List Nat) (p : Proc) : Res :=
  .exit code (p.log (.printf (error_line msg)))

/-! ## `shared_read.c` and `shared_write.c` -/

/-- Output of `printf("%s\n", data)`. -/
def print_data_out (m : Mem) : List Nat := cstr m ++ [10]

/-- `print_data` of `shared_read.c`, the reader's `SIGUSR1` handler: it reads `data` up to and
including the terminator. -/
def print_data (env : Env) (p : Proc) : Res :=
  p.access.bind fun p =>
    if reach env < (cstr p.data).length + 1 then .killed .SIGSEGV p
    else .cont (p.log (.printf (print_data_out p.data)))

/-- `setup` of the two roles. -/
def setup : Role → Env → Proc → Res
  | .reader, env, p =>
    let p := p.log (.printf (bytes "My PID: " ++ dec env.pid ++ [10]))
    if env.signal_ok then
      .cont { p.log (.signal true) with handler := true }
    else
      die 10 (bytes "Failed to register signal handler\n") (p.log (.signal false))
  | .writer, env, p =>
    if env.argc > 1 then
      .cont { p.log (.printf (cstr env.argv1 ++ [10])) with reader_pid := atoi env.argv1 }
    else
      die 11 (bytes "No reader PID specified\n") p

/-- The other process sizes the object during the job, if it opens it then and finds it
empty. -/
def peer_sizing (env : Env) (p : Proc) : Proc :=
  if p.obj.getD 0 = 0 ∧ env.peer_sizes p.jobs = true then
    { p with obj := some SHARED_OBJ_SIZE }
  else p

/-- `scanf("%s", data)`.  At the end of input nothing is stored.  Otherwise the token and its
terminator are stored from `data[0]` on, however long the token is; the store faults where
`data` cannot be dereferenced or the token runs past the accessible bytes. -/
def scanf_data (env : Env) (p : Proc) : Res :=
  match scanf_s p.stdin with
  | (none, rest) => .cont { p.log (.scanf 0) with stdin := rest }
  | (some tok, rest) =>
    p.access.bind fun p =>
      if reach env < (scanf_indices tok).length then
        .killed .SIGSEGV { p with data := store_upto p.data tok (reach env), stdin := rest }
      else
        .cont { p.log (.scanf (scanf_indices tok).length) with
                data := store p.data tok, stdin := rest }

/-- Whether a `kill` with this first argument signals the caller itself: its own process
identifier, 0 and minus its process group do, -1 does where the system says so. -/
def kill_self (env : Env) (pid : Int) : Bool :=
  if pid = -1 then env.broadcast_self
  else pid == (env.pid : Int) || pid == 0 || pid == - (env.pgid : Int)

/-- `kill(reader_pid, SIGUSR1)` in the writer, which has no handler for `SIGUSR1`: a signal
that reaches the writer itself terminates it before `kill` returns. -/
def kill_reader (env : Env) (p : Proc) : Res :=
  if kill_self env p.reader_pid then
    .killed .SIGUSR1 { p.log (.kill p.reader_pid true) with jobs := p.jobs + 1 }
  else
    .cont { p.log (.kill p.reader_pid (env.kill_ok p.jobs)) with jobs := p.jobs + 1 }

/-- `do_job` of the two roles. -/
def do_job : Role → Env → Proc → Res
  | .reader, env, p =>
    .cont { (peer_sizing env p).log .usleep with
            data := env.peer p.jobs p.data, jobs := p.jobs + 1 }
  | .writer, env, p =>
    (scanf_data env (peer_sizing env p)).bind fun p => kill_reader env p

/-! ## `main` -/

/-- Output of `printf("ftruncate failed with code %d\n", errno)`. -/
def sizing_warning (e : Nat) : List Nat := bytes "ftruncate failed with code " ++ dec e ++ [10]

/-- Output of `printf("Shared object size: %lld\n", shared_stats.st_size)`. -/
def size_report (size : Nat) : List Nat := bytes "Shared object size: " ++ dec size ++ [10]

/-- Lines 32 to 46 of `main`: open the named object, size it when it is empty, report. -/
def open_and_size (env : Env) (p : Proc) : Res :=
  if env.shm_open_ok then
    let p := { p.log (.shm_open true) with obj := some (p.obj.getD 0) }
    if env.fstat_ok then
      let p := p.log (.fstat (some (p.obj.getD 0)))
      if p.obj.getD 0 = 0 then
        let p :=
          match env.ftruncate_err with
          | none => { p.log (.ftruncate none) with obj := some SHARED_OBJ_SIZE }
          | some e => (p.log (.ftruncate (some e))).log (.printf (sizing_warning e))
        if env.refstat_ok then
          let p := p.log (.fstat (some (p.obj.getD 0)))
          .cont (p.log (.printf (size_report (p.obj.getD 0))))
        else
          die 2 (bytes "Failed to check shared object size") (p.log (.fstat none))
      else
        .cont (p.log (.printf (size_report (p.obj.getD 0))))
    else
      die 2 (bytes "Failed to check shared object size") (p.log (.fstat none))
  else
    die 1 (bytes "Failed to open shared object") (p.log (.shm_open false))

/-- Lines 48 to 52 of `main`: map the object, close the descriptor, check the mapping. -/
def map_region (env : Env) (p : Proc) : Res :=
  if env.mmap_ok then
    .cont ({ p.log (.mmap true) with mapped := true }.log .close)
  else
    die 3 (bytes "Failed to map shared object") ((p.log (.mmap false)).log .close)

/-- Line 56: `strcmp(data, "q")`, which reads the first byte of `data` and at most one
more. -/
def check (p : Proc) : Res :=
  p.access.bind fun p => .cont (p.log (.strcmp (strcmp p.data sentinel)))

/-- One iteration of the loop body (lines 55 and 56): the job, then `strcmp(data, "q")`. -/
def iteration (job : Proc → Res) (p : Proc) : Res := (job p).bind check

/-- Lines 54 to 58 of `main`, at most `fuel` iterations. -/
def run_loop (job : Proc → Res) : Nat → Proc → Res
  | 0, p => .running p
  | fuel + 1, p =>
    match iteration job p with
    | .cont p => if strcmp p.data sentinel = 0 then .cont p else run_loop job fuel p
    | r => r

/-- Lines 60 and 61 of `main`. -/
def unmap (env : Env) (p : Proc) : Res :=
  if env.munmap_ok then
    .cont { p.log (.munmap true) with mapped := false }
  else
    die 4 (bytes "munmap failed") (p.log (.munmap false))

/-- Lines 63 to 67 of `main`. -/
def destroy (env : Env) (p : Proc) : Res :=
  match env.shm_unlink_err with
  | none => .exit 0 { p.log (.shm_unlink none) with obj := none }
  | some e =>
    if e ≠ ENOENT then
      die 5 (bytes "shm_unlink failed") (p.log (.shm_unlink (some e)))
    else
      .exit 0 (p.log (.shm_unlink (some e)))

/-- Lines 30 to 52 of `main`: everything before the loop. -/
def startup (role : Role) (env : Env) (p : Proc) : Res :=
  (setup role env p).bind fun p =>
  (open_and_size env p).bind fun p =>
  map_region env p

/-- `main` of `shared_common.c` linked with the given role. -/
def main (fuel : Nat) (role : Role) (env : Env) (p : Proc) : Res :=
  (startup role env p).bind fun p =>
  (run_loop (do_job role env) fuel p).bind fun p =>
  (unmap env p).bind fun p =>
  destroy env p

/-! ## The process as a transition system

The statements of `main` grouped as above, one group a step of the main flow, and the
delivery of `SIGUSR1`, which runs the installed handler between two steps. -/

/-- Program points of `main`, and the two ways a process ends. -/
inductive Phase
  | setup
  | open_and_size
  | map_region
  | loop
  | unmap
  | destroy
  | exited (code : Nat)
  | killed (sig : Signal)
  deriving DecidableEq, Repr

/-- Configuration after a group of statements that leads to `next` when the process goes
on. -/
def Res.goto (r : Res) (next : Phase) : Phase × Proc :=
  match r with
  | .cont p => (next, p)
  | .exit c p => (.exited c, p)
  | .running p => (next, p)
  | .killed s p => (.killed s, p)

/-- One step of the main flow; `none` once the process has ended. -/
def flow (role : Role) (env : Env) : Phase → Proc → Option (Phase × Proc)
  | .setup, p => some ((setup role env p).goto .open_and_size)
  | .open_and_size, p => some ((open_and_size env p).goto .map_region)
  | .map_region, p => some ((map_region env p).goto .loop)
  | .loop, p =>
    some
      (match iteration (do_job role env) p with
       | .cont q => if strcmp q.data sentinel = 0 then (.unmap, q) else (.loop, q)
       | r => r.goto .loop)
  | .unmap, p => some ((unmap env p).goto .destroy)
  | .destroy, p => some ((destroy env p).goto (.exited 0))
  | .exited _, _ => none
  | .killed _, _ => none

/-- Steps of a process: a step of the main flow, or the delivery of `SIGUSR1` to a live
process whose handler is installed, which runs `print_data`. -/
inductive Step (role : Role) (env : Env) : Phase × Proc → Phase × Proc → Prop
  | flow {ph : Phase} {p : Proc} {c : Phase × Proc} :
      flow role env ph p = some c → Step role env (ph, p) c
  | sigusr1 {ph : Phase} {p : Proc} :
      (flow role env ph p).isSome = true → p.handler = true →
      Step role env (ph, p) ((print_data env p).goto ph)

/-! ## Auxiliary definitions used by the statements -/

/-- Any `kill`. -/
def Event.isKill : Event → Bool
  | .kill _ _ => true
  | _ => false

/-- Operations on the shared-memory object. -/
def Event.isShmOp : Event → Bool
  | .shm_open _ => true
  | .fstat _ => true
  | .ftruncate _ => true
  | .mmap _ => true
  | .munmap _ => true
  | .shm_unlink _ => true
  | _ => false

/-- Failed calls whose result `main` or `setup` tests and answers with `die`. -/
def Event.fatal : Event → Bool
  | .signal false => true
  | .shm_open false => true
  | .fstat none => true
  | .mmap false => true
  | .munmap false => true
  | .shm_unlink (some e) => e != ENOENT
  | _ => false

/-- Failed calls that the code does not act upon and that leave the process as it would be
after a success: a failed `kill`, a `scanf` at the end of input, and `shm_unlink` failing
with `ENOENT`. -/
def Event.tolerated : Event → Bool
  | .kill _ false => true
  | .scanf 0 => true
  | .shm_unlink (some e) => e == ENOENT
  | _ => false

/-- Events a run adds to the trace of the state it started from. -/
def Res.added (r : Res) (p : Proc) : List Event := r.proc.trace.drop p.trace.length

/-- Size of the named object after the open-and-size sequences of processes started one
after another, each with its own call results. -/
def reopen (obj : Option Nat) : List Env → Option Nat
  | [] => obj
  | env :: envs => reopen (open_and_size env (Proc.start obj [] [])).proc.obj envs

/-- Call results of a run without failures.  The process is number 7 in group 7, the writer
is given the argument `"42"`, the mapping is one page of 4096 bytes followed by no other
mapping, and the peer stores `"q"` during the reader's third job. -/
def env_ok : Env :=
  { argc := 2, argv1 := bytes "42", pid := 7, pgid := 7, broadcast_self := false,
    signal_ok := true, shm_open_ok := true, fstat_ok := true, ftruncate_err := none,
    refstat_ok := true, mmap_ok := true, slack := 3841, munmap_ok := true,
    shm_unlink_err := none, kill_ok := fun _ => true,
    peer := fun n m => if n = 2 then bytes "q" else m, peer_sizes := fun _ => false }

/-! ## Definitions used to state and prove the properties -/

/-- Exit status that `main` and `setup` pass to `die` after a tested call has failed. -/
def Event.die_code : Event → Nat
  | .signal _ => 10
  | .shm_open _ => 1
  | .fstat _ => 2
  | .mmap _ => 3
  | .munmap _ => 4
  | .shm_unlink _ => 5
  | _ => 0

/-- A trace without a fatal failure. -/
def Clean (t : List Event) : Prop := ∀ x ∈ t, x.fatal = false

/-- A trace that ends in a fatal failure answered by `die c`: the failed call is the only
fatal one, and only the `close(fd)` after a failed `mmap` may stand between it and the
`ERROR:` line. -/
def Aborted (c : Nat) (t : List Event) : Prop :=
  ∃ pre e msg, Clean pre ∧ e.fatal = true ∧ c = e.die_code ∧
    (t = pre ++ [e, .printf (error_line msg)] ∨
      (e = .mmap false ∧ t = pre ++ [e, .close, .printf (error_line msg)]))

/-- What holds of every outcome of a run that started from a clean trace. -/
def Outcome (role : Role) (env : Env) : Res → Prop
  | .cont q => Clean q.trace ∧ (role = .writer → 1 < env.argc)
  | .running q => Clean q.trace ∧ (role = .writer → 1 < env.argc)
  | .killed _ q => Clean q.trace ∧ (role = .writer → 1 < env.argc)
  | .exit c q =>
    (Clean q.trace ∧ ((c = 0 ∧ (role = .writer → 1 < env.argc)) ∨
      (c = 11 ∧ role = .writer ∧ env.argc ≤ 1))) ∨
    (Aborted c q.trace ∧ (role = .writer → 1 < env.argc))

/-- Calls made inside the loop body. -/
def Event.isJob : Event → Bool
  | .usleep => true
  | .scanf _ => true
  | .kill _ _ => true
  | .strcmp _ => true
  | _ => false

/-- The two calls made after the loop. -/
def Event.isRelease : Event → Bool
  | .munmap _ => true
  | .shm_unlink _ => true
  | _ => false

/-- A trace without events of the given kind. -/
def Free (P : Event → Bool) (t : List Event) : Prop := ∀ x ∈ t, P x = false

/-- Any `ftruncate`. -/
def Event.isSizing : Event → Bool
  | .ftruncate _ => true
  | _ => false

/-- What a piece of the loop body may change: it adds calls of the loop body to the trace,
keeps the mapping and the handler, and faults only where the region is not mapped. -/
def JobStep (p q : Proc) : Prop :=
  (∃ evs, q.trace = p.trace ++ evs ∧ ∀ x ∈ evs, x.isJob = true) ∧
  q.mapped = p.mapped ∧ (p.mapped = true → q.faults = p.faults)

/-- Outcome of a piece of the loop body that raises the job counter by `n` when control
goes on: it neither exits nor runs out of fuel. -/
def JobRes (p : Proc) (n : Nat) (r : Res) : Prop :=
  JobStep p r.proc ∧ (∀ c q, r ≠ .exit c q) ∧ (∀ q, r ≠ .running q) ∧
  ∀ q, r = .cont q → q.jobs = p.jobs + n

/-- The setup of a role can succeed: the writer has its argument, the reader's `signal`
succeeds. -/
def setup_ok (role : Role) (env : Env) : Prop :=
  (role = .writer → 1 < env.argc) ∧ (role = .reader → env.signal_ok = true)

/-- Call results of a writer whose `kill` always fails. -/
def env_kill_fails : Env := { env_ok with kill_ok := fun _ => false }

/-- Call results of a run on which `ftruncate` fails with `errno = 22`. -/
def env_sizing_fails : Env := { env_ok with ftruncate_err := some 22 }

/-- Call results of a reader whose peer leaves `"hi"` during the first two jobs and `"q"`
followed by other bytes during the third. -/
def env_peer : Env :=
  { env_ok with peer := fun n _ => if n = 2 then [113, 0, 7, 7] else [104, 105] }

/-- States of the reader of `env_peer` at the head of the loop, started on the buffer
`"q"`: the state after `n` iterations. -/
def peer_states (n : Nat) : Proc :=
  (fun p => (iteration (do_job .reader env_peer) p).proc)^[n]
    (startup .reader env_peer (Proc.start none (bytes "q") [])).proc

/-- Failed calls: every result that reports an error or an input failure. -/
def Event.failed : Event → Bool
  | .signal false => true
  | .shm_open false => true
  | .fstat none => true
  | .ftruncate (some _) => true
  | .mmap false => true
  | .scanf 0 => true
  | .kill _ false => true
  | .munmap false => true
  | .shm_unlink (some _) => true
  | _ => false

/-- A writer at the head of its loop: started on a fresh object with the given operator
input, all calls succeeding. -/
def writer_at (inp : List Nat) : Proc :=
  (startup .writer env_ok (Proc.start none [] inp)).proc

/-- A reader at the head of its loop whose buffer holds the given bytes. -/
def reader_on (m : Mem) : Proc :=
  { (startup .reader env_ok (Proc.start (some 255) [] [])).proc with data := m }

/-! ## The sentinel test and the loop -/

theorem sentinel_eq : sentinel = [113] := rfl

theorem strcmp_sentinel (m : Mem) :
    strcmp m sentinel = 0 ↔ m.byte 0 = 113 ∧ m.byte 1 = 0 := by
  rw [sentinel_eq]
  rcases m with _ | ⟨a, _ | ⟨b, m⟩⟩
  · simp [strcmp, Mem.byte]
  · by_cases h : a = 113
    · subst h; simp [strcmp, Mem.byte]
    · simp [strcmp, Mem.byte, h]; omega
  · by_cases h : a = 113
    · subst h; simp [strcmp, Mem.byte]
    · simp [strcmp, Mem.byte, h]; omega

theorem cstr_sentinel (m : Mem) :
    cstr m = sentinel ↔ m.byte 0 = 113 ∧ m.byte 1 = 0 := by
  rw [sentinel_eq]
  rcases m with _ | ⟨a, _ | ⟨b, m⟩⟩
  · simp [cstr, Mem.byte]
  · by_cases h : a = 0
    · subst h; simp [cstr, Mem.byte]
    · have ha : (a != 0) = true := by simpa using h
      simp [cstr, Mem.byte, List.takeWhile_cons, ha]
  · by_cases h : a = 0
    · subst h; simp [cstr, Mem.byte]
    · have ha : (a != 0) = true := by simpa using h
      by_cases hb : b = 0
      · subst hb; simp [cstr, Mem.byte, List.takeWhile_cons, ha]
      · have hb2 : (b != 0) = true := by simpa using hb
        simp [cstr, Mem.byte, List.takeWhile_cons, ha, hb, hb2]

theorem bind_eq_cont {r : Res} {f : Proc → Res} {q : Proc} (h : r.bind f = .cont q) :
    ∃ p1, r = .cont p1 ∧ f p1 = .cont q := by
  cases r with
  | cont p1 => exact ⟨p1, rfl, h⟩
  | exit c p1 => simp [Res.bind] at h
  | running p1 => simp [Res.bind] at h
  | killed s p1 => simp [Res.bind] at h

theorem access_eq_cont {p q : Proc} (h : p.access = .cont q) :
    q = p ∧ p.mapped = true ∧ 0 < p.obj.getD 0 := by
  unfold Proc.access at h
  by_cases hm : p.mapped = true
  · by_cases hs : p.obj.getD 0 = 0
    · simp [hm, hs] at h
    · simp only [hm, hs, if_true, if_false, Res.cont.injEq] at h
      exact ⟨h.symm, hm, Nat.pos_of_ne_zero hs⟩
  · simp [hm] at h

theorem access_cont (p : Proc) (hm : p.mapped = true) (hs : 0 < p.obj.getD 0) :
    p.access = .cont p := by
  have : ¬ p.obj.getD 0 = 0 := by omega
  simp [Proc.access, hm, this]

theorem check_eq_cont (p q : Proc) :
    check p = .cont q ↔
      p.access = .cont p ∧ q = p.log (.strcmp (strcmp p.data sentinel)) := by
  constructor
  · intro h
    obtain ⟨p1, h1, h2⟩ := bind_eq_cont h
    obtain ⟨e, _, _⟩ := access_eq_cont h1
    subst e
    simp only [Res.cont.injEq] at h2
    exact ⟨h1, h2.symm⟩
  · rintro ⟨h1, h2⟩
    simp [check, h1, Res.bind, h2]

theorem iteration_eq_cont (job : Proc → Res) (p q : Proc) :
    iteration job p = .cont q ↔
      ∃ p1, job p = .cont p1 ∧ p1.access = .cont p1 ∧
        q = p1.log (.strcmp (strcmp p1.data sentinel)) := by
  constructor
  · intro h
    obtain ⟨p1, h1, h2⟩ := bind_eq_cont h
    exact ⟨p1, h1, (check_eq_cont p1 q).1 h2⟩
  · rintro ⟨p1, h1, h2⟩
    simp only [iteration, h1, Res.bind]
    exact (check_eq_cont p1 q).2 h2

theorem run_loop_stops (job : Proc → Res) (p : Proc) (h : ∀ q, iteration job p ≠ .cont q)
    (fuel : Nat) : run_loop job (fuel + 1) p = iteration job p := by
  cases hi : iteration job p with
  | cont q => exact absurd hi (h q)
  | exit c q => simp [run_loop, hi]
  | running q => simp [run_loop, hi]
  | killed s q => simp [run_loop, hi]

theorem run_loop_running (job : Proc → Res) :
    ∀ (fuel : Nat) (s : Nat → Proc),
      (∀ j < fuel, iteration job (s j) = .cont (s (j + 1))) →
      (∀ j < fuel, strcmp (s (j + 1)).data sentinel ≠ 0) →
      run_loop job fuel (s 0) = .running (s fuel) := by
  intro fuel
  induction fuel with
  | zero => intro s _ _; rfl
  | succ n ih =>
    intro s hit h
    have h0 := h 0 (Nat.succ_pos n)
    have i0 := hit 0 (Nat.succ_pos n)
    simp only [run_loop, i0, h0, if_false]
    exact ih (fun j => s (j + 1)) (fun j hj => hit (j + 1) (Nat.succ_lt_succ hj))
      (fun j hj => h (j + 1) (Nat.succ_lt_succ hj))

theorem run_loop_leaves (job : Proc → Res) :
    ∀ (k : Nat) (s : Nat → Proc) (fuel : Nat),
      (∀ j ≤ k, iteration job (s j) = .cont (s (j + 1))) →
      (∀ j < k, strcmp (s (j + 1)).data sentinel ≠ 0) →
      strcmp (s (k + 1)).data sentinel = 0 → k < fuel →
      run_loop job fuel (s 0) = .cont (s (k + 1)) := by
  intro k
  induction k with
  | zero =>
    intro s fuel hit _ hq hf
    obtain ⟨n, rfl⟩ : ∃ n, fuel = n + 1 := ⟨fuel - 1, by omega⟩
    have i0 := hit 0 (Nat.le_refl 0)
    simp [run_loop, i0, hq]
  | succ k ih =>
    intro s fuel hit h hq hf
    obtain ⟨n, rfl⟩ : ∃ n, fuel = n + 1 := ⟨fuel - 1, by omega⟩
    have h0 := h 0 (Nat.succ_pos k)
    have i0 := hit 0 (Nat.zero_le _)
    simp only [run_loop, i0, h0, if_false]
    exact ih (fun j => s (j + 1)) n (fun j hj => hit (j + 1) (Nat.succ_le_succ hj))
      (fun j hj => h (j + 1) (Nat.succ_lt_succ hj)) hq (by omega)

theorem run_loop_terminates (job : Proc → Res) :
    ∀ (k : Nat) (s : Nat → Proc) (fuel : Nat),
      (∀ j ≤ k, iteration job (s j) = .cont (s (j + 1))) →
      strcmp (s (k + 1)).data sentinel = 0 → k < fuel →
      ∃ q, run_loop job fuel (s 0) = .cont q := by
  intro k
  induction k with
  | zero =>
    intro s fuel hit hq hf
    obtain ⟨n, rfl⟩ : ∃ n, fuel = n + 1 := ⟨fuel - 1, by omega⟩
    have i0 := hit 0 (Nat.le_refl 0)
    exact ⟨s 1, by simp [run_loop, i0, hq]⟩
  | succ k ih =>
    intro s fuel hit hq hf
    obtain ⟨n, rfl⟩ : ∃ n, fuel = n + 1 := ⟨fuel - 1, by omega⟩
    have i0 := hit 0 (Nat.zero_le _)
    simp only [run_loop, i0]
    split
    · exact ⟨_, rfl⟩
    · exact ih (fun j => s (j + 1)) n (fun j hj => hit (j + 1) (Nat.succ_le_succ hj)) hq
        (by omega)

/-- C1 (driver loop of `main`).  For every job: an iteration returns exactly when its job
returns and the buffer the job left can be read, and its only further effect is the test
`strcmp(data, "q")` of that buffer, made after the job; an outcome of an iteration other
than a return (the process was killed in it) is the outcome of the loop.  Let `s 0`,
`s 1`, ... be the states at the head of the loop, `s (j + 1)` the one left by iteration
`j + 1`.  If the buffers left by the first `k` jobs have null-terminated contents other than
`"q"`, and the buffer left by job `k + 1` has byte 0 equal to `'q'` (113) and byte 1 equal
to 0, whatever its other bytes are, then the loop is still RUNNING after each of the first
`k` iterations (with no iteration done no test has been made), and with more fuel than `k`
it leaves the loop after exactly `k + 1` iterations. -/
theorem driver_loop_sentinel (job : Proc → Res) (s : Nat → Proc) (k : Nat)
    (hit : ∀ j ≤ k, iteration job (s j) = .cont (s (j + 1)))
    (hne : ∀ j < k, cstr (s (j + 1)).data ≠ sentinel)
    (hq0 : (s (k + 1)).data.byte 0 = 113)
    (hq1 : (s (k + 1)).data.byte 1 = 0) :
    (∀ p q, iteration job p = .cont q ↔
      ∃ p1, job p = .cont p1 ∧ p1.access = .cont p1 ∧
        q = p1.log (.strcmp (strcmp p1.data sentinel))) ∧
    (∀ p, (∀ q, iteration job p ≠ .cont q) →
      ∀ fuel, run_loop job (fuel + 1) p = iteration job p) ∧
    (∀ n ≤ k, run_loop job n (s 0) = .running (s n)) ∧
    (∀ fuel, k < fuel → run_loop job fuel (s 0) = .cont (s (k + 1))) := by
  have hrun : ∀ j < k, strcmp (s (j + 1)).data sentinel ≠ 0 := by
    intro j hj h
    rw [strcmp_sentinel] at h
    exact hne j hj ((cstr_sentinel _).2 h)
  refine ⟨iteration_eq_cont job, run_loop_stops job, ?_, ?_⟩
  · intro n hn
    exact run_loop_running job n s (fun j hj => hit j (by omega)) (fun j hj => hrun j (by omega))
  · intro fuel hf
    exact run_loop_leaves job k s fuel hit hrun ((strcmp_sentinel _).2 ⟨hq0, hq1⟩) hf

theorem peer_states_step : ∀ j ≤ 2,
    iteration (do_job .reader env_peer) (peer_states j) = .cont (peer_states (j + 1)) := by
  decide

/-- A reader whose buffer holds `"q"` before the first job and whose peer leaves `"hi"`
twice and then `"q"` followed by other bytes: the loop ends after the third job. -/
theorem driver_loop_sentinel_witness :
    (∀ j ≤ 2, iteration (do_job .reader env_peer) (peer_states j)
      = .cont (peer_states (j + 1))) ∧
    (peer_states 0).data = bytes "q" ∧
    (∀ j < 2, cstr (peer_states (j + 1)).data ≠ sentinel) ∧
    (peer_states (2 + 1)).data = [113, 0, 7, 7] ∧
    run_loop (do_job .reader env_peer) 5 (peer_states 0) = .cont (peer_states (2 + 1)) :=
  ⟨peer_states_step, by decide, by decide, by decide,
    (driver_loop_sentinel (do_job .reader env_peer) peer_states 2
      peer_states_step (by decide) (by decide) (by decide)).2.2.2 5 (by decide)⟩

theorem takeWhile_append_stop {α : Type} (f : α → Bool) (l rest : List α)
    (hl : ∀ c ∈ l, f c = true) (hr : ∀ c ∈ rest.head?, f c = false) :
    (l ++ rest).takeWhile f = l ∧ (l ++ rest).dropWhile f = rest := by
  induction l with
  | nil =>
    cases rest with
    | nil => simp
    | cons r rs =>
      have : f r = false := hr r (by simp)
      simp [List.takeWhile_cons, List.dropWhile_cons, this]
  | cons a l ih =>
    have ha : f a = true := hl a (by simp)
    have := ih (fun c hc => hl c (by simp [hc]))
    simp [List.takeWhile_cons, List.dropWhile_cons, ha, this.1, this.2]

theorem scanf_s_token (M rest : List Nat) (hne : M ≠ [])
    (hchars : ∀ c ∈ M, c ≠ 0 ∧ isspace c = false)
    (hrest : ∀ c ∈ rest.head?, isspace c = true) :
    scanf_s (M ++ rest) = (some M, rest) := by
  obtain ⟨c, cs, rfl⟩ : ∃ c cs, M = c :: cs := by
    cases M with
    | nil => exact absurd rfl hne
    | cons c cs => exact ⟨c, cs, rfl⟩
  have hc : isspace c = false := (hchars c (by simp)).2
  have h := takeWhile_append_stop (fun b => !isspace b) cs rest
    (fun x hx => by simp [(hchars x (by simp [hx])).2])
    (fun x hx => by simp [hrest x hx])
  simp [scanf_s, List.dropWhile_cons, hc, h.1, h.2]

theorem cstr_store (m : Mem) (M : List Nat) (hchars : ∀ c ∈ M, c ≠ 0) :
    cstr (store m M) = M := by
  have h := takeWhile_append_stop (fun b : Nat => b != 0) M (0 :: m.drop (M.length + 1))
    (fun x hx => by simpa using hchars x hx) (fun x hx => by simp at hx; simp [← hx])
  simpa [cstr, store] using h.1

theorem scanf_indices_bound (tok : List Nat) (h : tok.length < SHARED_OBJ_SIZE) :
    ∀ i ∈ scanf_indices tok, i < SHARED_OBJ_SIZE := by
  intro i hi
  simp only [scanf_indices, List.mem_range] at hi
  omega

theorem do_job_writer_token (env : Env) (w : Proc) (M rest : List Nat)
    (hs : scanf_s w.stdin = (some M, rest))
    (hm : w.mapped = true) (hz : 0 < w.obj.getD 0)
    (hk : kill_self env w.reader_pid = false) (hfit : M.length + 1 ≤ reach env) :
    do_job .writer env w =
      .cont { w with
        trace := w.trace ++ [.scanf (M.length + 1), .kill w.reader_pid (env.kill_ok w.jobs)],
        data := store w.data M, stdin := rest, jobs := w.jobs + 1 } := by
  have hz2 : ¬ w.obj.getD 0 = 0 := by omega
  have hfit2 : ¬ reach env < M.length + 1 := by omega
  simp [do_job, scanf_data, kill_reader, peer_sizing, Proc.access, Proc.log, Res.bind, hs, hm,
    hz2, hk, hfit2, scanf_indices]

theorem do_job_writer_overrun (env : Env) (w : Proc) (M rest : List Nat)
    (hs : scanf_s w.stdin = (some M, rest))
    (hm : w.mapped = true) (hz : 0 < w.obj.getD 0) (hfit : reach env < M.length + 1) :
    do_job .writer env w =
      .killed .SIGSEGV { w with data := store_upto w.data M (reach env), stdin := rest } := by
  have hz2 : ¬ w.obj.getD 0 = 0 := by omega
  simp [do_job, scanf_data, peer_sizing, Proc.access, Res.bind, hs, hm, hz2, hfit,
    scanf_indices]

theorem print_data_mapped (env : Env) (r : Proc) (hm : r.mapped = true)
    (hz : 0 < r.obj.getD 0) (hfit : (cstr r.data).length + 1 ≤ reach env) :
    print_data env r = .cont (r.log (.printf (print_data_out r.data))) := by
  have hz2 : ¬ r.obj.getD 0 = 0 := by omega
  have hfit2 : ¬ reach env < (cstr r.data).length + 1 := by omega
  simp [print_data, Proc.access, Res.bind, hm, hz2, hfit2]

theorem reach_ge (env : Env) : SHARED_OBJ_SIZE ≤ reach env := by
  simp [reach]

/-- C2, amended (write/read round trip).  Let `M` be a non-empty message shorter than 255
bytes, other than `"q"`, without white space and without a 0 byte, given as operator input
and followed by the end of input or by white space.  In a writer and a reader in their loops
(the region mapped on the sized object), the writer holding the PID of another process, the
writer's `do_job` returns, having stored `M.length + 1` bytes, all at indices below 255, and
signalled the reader, and `print_data` run on the same buffer returns, having printed
exactly `M` followed by the newline of its format. -/
theorem write_read_round_trip (env renv : Env) (w r : Proc) (M rest : List Nat)
    (hlen : M.length < SHARED_OBJ_SIZE) (_hq : M ≠ sentinel) (hne : M ≠ [])
    (hchars : ∀ c ∈ M, c ≠ 0 ∧ isspace c = false)
    (hin : w.stdin = M ++ rest) (hrest : ∀ c ∈ rest.head?, isspace c = true)
    (hwm : w.mapped = true) (hws : 0 < w.obj.getD 0)
    (hpid : kill_self env w.reader_pid = false)
    (hrm : r.mapped = true) (hrs : 0 < r.obj.getD 0)
    (hr : r.data = (do_job .writer env w).proc.data) :
    (∃ q, do_job .writer env w = .cont q ∧
      q.trace = w.trace ++ [.scanf (M.length + 1), .kill w.reader_pid (env.kill_ok w.jobs)]) ∧
    (∀ i ∈ scanf_indices M, i < SHARED_OBJ_SIZE) ∧
    (∃ q, print_data renv r = .cont q ∧ q.trace = r.trace ++ [.printf (M ++ [10])]) := by
  have hs : scanf_s w.stdin = (some M, rest) := by
    rw [hin]; exact scanf_s_token M rest hne hchars hrest
  have hw := do_job_writer_token env w M rest hs hwm hws hpid
    (by have := reach_ge env; omega)
  have hdata : r.data = store w.data M := by rw [hr, hw]; rfl
  have hc : cstr r.data = M := by
    rw [hdata]; exact cstr_store _ _ (fun c hc => (hchars c hc).1)
  refine ⟨⟨_, hw, rfl⟩, scanf_indices_bound M hlen, ?_⟩
  refine ⟨_, print_data_mapped renv r hrm hrs (by rw [hc]; have := reach_ge renv; omega), ?_⟩
  simp [Proc.log, print_data_out, hc]

/-- The message `"hello"` typed on a line of its own is printed back by the handler. -/
theorem write_read_round_trip_witness :
    (bytes "hello").length < SHARED_OBJ_SIZE ∧ bytes "hello" ≠ sentinel ∧
    (writer_at (bytes "hello\nq\n")).mapped = true ∧
    kill_self env_ok (writer_at (bytes "hello\nq\n")).reader_pid = false ∧
    ∃ q, print_data env_ok
        (reader_on (do_job .writer env_ok (writer_at (bytes "hello\nq\n"))).proc.data) = .cont q ∧
      q.trace = (reader_on (do_job .writer env_ok (writer_at (bytes "hello\nq\n"))).proc.data).trace
        ++ [.printf (bytes "hello" ++ [10])] :=
  ⟨by decide, by decide, by decide, by decide,
    (write_read_round_trip env_ok env_ok (writer_at (bytes "hello\nq\n"))
      (reader_on (do_job .writer env_ok (writer_at (bytes "hello\nq\n"))).proc.data)
      (bytes "hello") (bytes "\nq\n") (by decide) (by decide) (by decide) (by decide)
      (by decide) (by decide) (by decide) (by decide) (by decide) (by decide) (by decide)
      rfl).2.2⟩

/-- C2, counterexample: the message `"a b"` is shorter than 255 bytes and is not `"q"`, but
after the `do_job` of a started writer on the input line `"a b"` the handler prints `"a"`,
not the message. -/
theorem round_trip_whitespace_counterexample :
    (bytes "a b").length < 255 ∧ bytes "a b" ≠ sentinel ∧
    (writer_at (bytes "a b\n")).mapped = true ∧
    kill_self env_ok (writer_at (bytes "a b\n")).reader_pid = false ∧
    (print_data env_ok
      (reader_on (do_job .writer env_ok (writer_at (bytes "a b\n"))).proc.data)).added
        (reader_on (do_job .writer env_ok (writer_at (bytes "a b\n"))).proc.data)
      = [.printf (bytes "a\n")] ∧
    bytes "a\n" ≠ bytes "a b" ∧ bytes "a\n" ≠ bytes "a b\n" := by
  decide

theorem writer_at_eq (inp : List Nat) :
    writer_at inp =
      { trace := [.printf (bytes "42\n"), .shm_open true, .fstat (some 0), .ftruncate none,
          .fstat (some 255), .printf (bytes "Shared object size: 255\n"), .mmap true, .close],
        obj := some 255, data := [], stdin := inp, reader_pid := 42, handler := false,
        mapped := true, faults := 0, jobs := 0 } := by
  have h1 : atoi (bytes "42") = 42 := by decide
  have h2 : size_report 255 = bytes "Shared object size: 255\n" := by decide
  have h3 : cstr (bytes "42") ++ [10] = bytes "42\n" := by decide
  simp [writer_at, startup, setup, open_and_size, map_region, env_ok, Proc.start, Proc.log,
    Res.bind, Res.proc, SHARED_OBJ_SIZE, h1, h2, h3]

theorem replicate_token (n : Nat) (hn : 0 < n) :
    scanf_s (List.replicate n 97 ++ [10]) = (some (List.replicate n 97), [10]) :=
  scanf_s_token _ _
    (fun h => by
      have := congrArg List.length h
      rw [List.length_replicate] at this
      simp at this
      omega)
    (by intro c hc; rw [List.mem_replicate] at hc; rw [hc.2]; decide)
    (by decide)

set_option maxRecDepth 100000 in
theorem overflow_run :
    Event.scanf 256 ∈
      (main 1 .writer env_ok (Proc.start none [] (List.replicate 255 97 ++ [10]))).proc.trace := by
  decide

/-- C3, evaluation at the failing input.  On a line of 255 letters `a` the `do_job` of a
started writer stores 256 bytes through `data`: `scanf` takes the whole line as one token
and writes index 255, outside the 255-byte buffer, in a single call and in a run of
`main`. -/
theorem do_job_writes_past_buffer :
    (scanf_s (List.replicate 255 97 ++ [10])).1 = some (List.replicate 255 97) ∧
    255 ∈ scanf_indices (List.replicate 255 97) ∧
    (∃ q, do_job .writer env_ok (writer_at (List.replicate 255 97 ++ [10])) = .cont q ∧
      q.trace = (writer_at (List.replicate 255 97 ++ [10])).trace
        ++ [.scanf 256, .kill 42 true]) ∧
    ¬ (∀ i ∈ scanf_indices (List.replicate 255 97), i < SHARED_OBJ_SIZE) ∧
    Event.scanf 256 ∈
      (main 1 .writer env_ok (Proc.start none [] (List.replicate 255 97 ++ [10]))).proc.trace := by
  have hs := replicate_token 255 (by decide)
  have hmem : 255 ∈ scanf_indices (List.replicate 255 97) := by
    rw [scanf_indices, List.mem_range, List.length_replicate]; decide
  refine ⟨by rw [hs], hmem, ?_, ?_, overflow_run⟩
  · have h := do_job_writer_token env_ok (writer_at (List.replicate 255 97 ++ [10])) _ _
      (by rw [writer_at_eq]; exact hs) (by rw [writer_at_eq]) (by rw [writer_at_eq]; decide)
      (by rw [writer_at_eq]; decide) (by rw [List.length_replicate]; decide)
    refine ⟨_, h, ?_⟩
    rw [List.length_replicate]
    rfl
  · intro h
    exact absurd (h 255 hmem) (by decide)

/-- A token of 5000 bytes runs past the page of the mapping: the writer is killed inside
`scanf`, before it calls `kill`. -/
theorem do_job_overrun_killed :
    ∃ q, do_job .writer env_ok (writer_at (List.replicate 5000 97 ++ [10]))
        = .killed .SIGSEGV q ∧
      q.trace = (writer_at (List.replicate 5000 97 ++ [10])).trace := by
  have hs := replicate_token 5000 (by decide)
  exact ⟨_, do_job_writer_overrun env_ok (writer_at (List.replicate 5000 97 ++ [10])) _ _
    (by rw [writer_at_eq]; exact hs) (by rw [writer_at_eq]) (by rw [writer_at_eq]; decide)
    (by rw [List.length_replicate]; decide), rfl⟩

/-! ## The loop body -/

@[simp]
theorem clean_nil : Clean [] := by
  intro x hx; cases hx

@[simp]
theorem clean_cons (e : Event) (t : List Event) :
    Clean (e :: t) ↔ e.fatal = false ∧ Clean t := by
  simp [Clean]

@[simp]
theorem clean_append (t u : List Event) : Clean (t ++ u) ↔ Clean t ∧ Clean u := by
  simp only [Clean, List.mem_append]
  constructor
  · intro h
    exact ⟨fun x hx => h x (Or.inl hx), fun x hx => h x (Or.inr hx)⟩
  · rintro ⟨h1, h2⟩ x (hx | hx)
    · exact h1 x hx
    · exact h2 x hx

@[simp]
theorem free_nil (P : Event → Bool) : Free P [] := by
  intro x hx; cases hx

@[simp]
theorem free_cons (P : Event → Bool) (e : Event) (t : List Event) :
    Free P (e :: t) ↔ P e = false ∧ Free P t := by
  simp [Free]

@[simp]
theorem free_append (P : Event → Bool) (t u : List Event) :
    Free P (t ++ u) ↔ Free P t ∧ Free P u := by
  simp only [Free, List.mem_append]
  constructor
  · intro h
    exact ⟨fun x hx => h x (Or.inl hx), fun x hx => h x (Or.inr hx)⟩
  · rintro ⟨h1, h2⟩ x (hx | hx)
    · exact h1 x hx
    · exact h2 x hx

theorem clean_of_isJob {evs : List Event} (h : ∀ x ∈ evs, x.isJob = true) : Clean evs := by
  intro x hx
  have := h x hx
  cases x <;> simp [Event.isJob] at this <;> rfl

theorem jobstep_refl (p : Proc) : JobStep p p :=
  ⟨⟨[], by simp, by simp⟩, rfl, fun _ => rfl⟩

theorem jobstep_trans {p q r : Proc} (h1 : JobStep p q) (h2 : JobStep q r) : JobStep p r := by
  obtain ⟨⟨e1, t1, j1⟩, m1, f1⟩ := h1
  obtain ⟨⟨e2, t2, j2⟩, m2, f2⟩ := h2
  refine ⟨⟨e1 ++ e2, by rw [t2, t1, List.append_assoc], ?_⟩, m2.trans m1,
    fun h => (f2 (m1.trans h)).trans (f1 h)⟩
  intro x hx
  rcases List.mem_append.1 hx with h | h
  · exact j1 x h
  · exact j2 x h

theorem jobres_bind (p : Proc) (n m : Nat) (r : Res) (f : Proc → Res)
    (hr : JobRes p n r) (hf : ∀ q, JobRes q m (f q)) : JobRes p (n + m) (r.bind f) := by
  obtain ⟨hs, hx, hrun, hj⟩ := hr
  cases r with
  | cont q =>
    obtain ⟨fs, fx, frun, fj⟩ := hf q
    refine ⟨jobstep_trans hs fs, fx, frun, ?_⟩
    intro q2 hq2
    rw [fj q2 hq2, hj q rfl]
    omega
  | exit c q => exact absurd rfl (hx c q)
  | running q => exact absurd rfl (hrun q)
  | killed s q => exact ⟨hs, by simp [Res.bind], by simp [Res.bind], by simp [Res.bind]⟩

theorem jobres_access (p : Proc) : JobRes p 0 p.access := by
  by_cases hm : p.mapped = true <;> by_cases hz : p.obj.getD 0 = 0 <;>
    simp [JobRes, JobStep, Proc.access, Res.proc, hm, hz]

theorem jobres_check (p : Proc) : JobRes p 0 (check p) := by
  refine jobres_bind p 0 0 _ _ (jobres_access p) (fun q => ?_)
  simp [JobRes, JobStep, Proc.log, Res.proc, Event.isJob]

theorem jobres_scanf_data (env : Env) (p : Proc) : JobRes p 0 (scanf_data env p) := by
  rcases h : scanf_s p.stdin with ⟨_ | tok, rest⟩
  · simp [scanf_data, h, JobRes, JobStep, Proc.log, Res.proc, Event.isJob]
  · have e : scanf_data env p = p.access.bind fun p =>
        if reach env < (scanf_indices tok).length then
          .killed .SIGSEGV { p with data := store_upto p.data tok (reach env), stdin := rest }
        else
          .cont { p.log (.scanf (scanf_indices tok).length) with
                  data := store p.data tok, stdin := rest } := by
      simp [scanf_data, h]
    rw [e]
    refine jobres_bind p 0 0 _ _ (jobres_access p) (fun q => ?_)
    by_cases hf : reach env < (scanf_indices tok).length <;>
      simp [JobRes, JobStep, Proc.log, Res.proc, Event.isJob, hf]

theorem jobres_kill_reader (env : Env) (p : Proc) : JobRes p 1 (kill_reader env p) := by
  by_cases hk : kill_self env p.reader_pid = true <;>
    simp [kill_reader, JobRes, JobStep, Proc.log, Res.proc, Event.isJob, hk]

theorem peer_sizing_frame (env : Env) (p : Proc) :
    (peer_sizing env p).trace = p.trace ∧ (peer_sizing env p).mapped = p.mapped ∧
    (peer_sizing env p).faults = p.faults ∧ (peer_sizing env p).jobs = p.jobs := by
  unfold peer_sizing
  split <;> simp

theorem jobres_peer_sizing (env : Env) (p : Proc) (n : Nat) (r : Res)
    (h : JobRes (peer_sizing env p) n r) : JobRes p n r := by
  have e := peer_sizing_frame env p
  unfold JobRes JobStep at h ⊢
  rw [e.1, e.2.1, e.2.2.1, e.2.2.2] at h
  exact h

theorem jobres_do_job (role : Role) (env : Env) (p : Proc) : JobRes p 1 (do_job role env p) := by
  cases role with
  | reader =>
    apply jobres_peer_sizing env
    simp [do_job, JobRes, JobStep, Proc.log, Res.proc, Event.isJob,
      (peer_sizing_frame env p).2.2.2]
  | writer =>
    apply jobres_peer_sizing env
    exact jobres_bind _ 0 1 _ _ (jobres_scanf_data env (peer_sizing env p))
      (fun q => jobres_kill_reader env q)

theorem jobres_iteration (role : Role) (env : Env) (p : Proc) :
    JobRes p 1 (iteration (do_job role env) p) := by
  exact jobres_bind p 1 0 _ _ (jobres_do_job role env p) (fun q => jobres_check q)

theorem run_loop_spec (role : Role) (env : Env) :
    ∀ (fuel : Nat) (p : Proc),
      JobStep p (run_loop (do_job role env) fuel p).proc ∧
      (∀ c q, run_loop (do_job role env) fuel p ≠ .exit c q) ∧
      (∀ q, run_loop (do_job role env) fuel p = .running q → q.jobs = p.jobs + fuel) := by
  intro fuel
  induction fuel with
  | zero =>
    intro p
    refine ⟨jobstep_refl p, by simp [run_loop], ?_⟩
    intro q hq
    simp only [run_loop, Res.running.injEq] at hq
    rw [← hq]; rfl
  | succ n ih =>
    intro p
    obtain ⟨hs, hx, hrun, hj⟩ := jobres_iteration role env p
    cases hi : iteration (do_job role env) p with
    | exit c q => exact absurd hi (hx c q)
    | running q => exact absurd hi (hrun q)
    | killed s q =>
      rw [hi] at hs
      simp only [run_loop, hi]
      exact ⟨hs, by simp, by simp⟩
    | cont q =>
      rw [hi] at hs
      have hjq := hj q hi
      simp only [run_loop, hi]
      split
      · exact ⟨hs, by simp, by simp⟩
      · obtain ⟨is, ix, ij⟩ := ih q
        refine ⟨jobstep_trans hs is, ix, ?_⟩
        intro q2 hq2
        rw [ij q2 hq2, hjq]; omega

/-! ## Fatal failures and exit statuses -/

theorem outcome_bind (role : Role) (env : Env) (r : Res) (f : Proc → Res)
    (hr : Outcome role env r)
    (hf : ∀ q, Clean q.trace → (role = .writer → 1 < env.argc) → Outcome role env (f q))
    (hrun : ∀ q, r ≠ .running q) :
    Outcome role env (r.bind f) := by
  cases r with
  | cont q => exact hf q hr.1 hr.2
  | exit c q => exact hr
  | running q => exact absurd rfl (hrun q)
  | killed s q => exact hr

theorem outcome_abort (role : Role) (env : Env) (q : Proc) (pre mid : List Event)
    (e : Event) (msg : List Nat) (c : Nat)
    (hq : q.trace = pre ++ (mid ++ [e, .printf (error_line msg)]))
    (hpre : Clean pre) (hmid : Clean mid) (he : e.fatal = true) (hc : c = e.die_code)
    (hw : role = .writer → 1 < env.argc) :
    Outcome role env (.exit c q) :=
  Or.inr ⟨⟨pre ++ mid, e, msg, by simp [hpre, hmid], he, hc, Or.inl (by simp [hq])⟩, hw⟩

theorem outcome_abort_close (role : Role) (env : Env) (q : Proc) (pre : List Event)
    (msg : List Nat)
    (hq : q.trace = pre ++ [.mmap false, .close, .printf (error_line msg)])
    (hpre : Clean pre) (hw : role = .writer → 1 < env.argc) :
    Outcome role env (.exit 3 q) :=
  Or.inr ⟨⟨pre, .mmap false, msg, hpre, rfl, rfl, Or.inr ⟨rfl, hq⟩⟩, hw⟩

theorem outcome_setup (role : Role) (env : Env) (p : Proc) (hp : Clean p.trace) :
    Outcome role env (setup role env p) := by
  cases role with
  | reader =>
    by_cases h : env.signal_ok = true
    · simp [setup, Proc.log, h, Outcome, hp, Event.fatal]
    · simp only [setup, Proc.log, die, h]
      exact outcome_abort _ _ _ p.trace [.printf (bytes "My PID: " ++ dec env.pid ++ [10])]
        (.signal false) (bytes "Failed to register signal handler\n") 10 (by simp) hp
        (by simp [Event.fatal]) rfl rfl (by simp)
  | writer =>
    by_cases h : env.argc > 1
    · simp [setup, Proc.log, h, Outcome, hp, Event.fatal]
    · simp [setup, Proc.log, die, h, Outcome, hp, Event.fatal]
      omega

theorem outcome_open_and_size (role : Role) (env : Env) (p : Proc) (hp : Clean p.trace)
    (hw : role = .writer → 1 < env.argc) :
    Outcome role env (open_and_size env p) := by
  by_cases h1 : env.shm_open_ok = true
  · by_cases h2 : env.fstat_ok = true
    · by_cases h3 : p.obj.getD 0 = 0
      · by_cases h4 : env.refstat_ok = true
        · cases h5 : env.ftruncate_err with
          | none =>
            simpa [open_and_size, Proc.log, h1, h2, h3, h4, h5, Outcome, hp, Event.fatal]
              using hw
          | some e =>
            simpa [open_and_size, Proc.log, h1, h2, h3, h4, h5, Outcome, hp, Event.fatal]
              using hw
        · cases h5 : env.ftruncate_err with
          | none =>
            simp only [open_and_size, Proc.log, die, h1, h2, h3, h4, h5]
            exact outcome_abort _ _ _ p.trace [.shm_open true, .fstat (some 0), .ftruncate none]
              (.fstat none) (bytes "Failed to check shared object size") 2 (by simp) hp
              (by simp [Event.fatal]) rfl rfl hw
          | some e =>
            simp only [open_and_size, Proc.log, die, h1, h2, h3, h4, h5]
            exact outcome_abort _ _ _ p.trace
              [.shm_open true, .fstat (some 0), .ftruncate (some e), .printf (sizing_warning e)]
              (.fstat none) (bytes "Failed to check shared object size") 2 (by simp) hp
              (by simp [Event.fatal]) rfl rfl hw
      · simpa [open_and_size, Proc.log, h1, h2, h3, Outcome, hp, Event.fatal] using hw
    · simp only [open_and_size, Proc.log, die, h1, h2]
      exact outcome_abort _ _ _ p.trace [.shm_open true] (.fstat none)
        (bytes "Failed to check shared object size") 2 (by simp) hp
        (by simp [Event.fatal]) rfl rfl hw
  · simp only [open_and_size, Proc.log, die, h1]
    exact outcome_abort _ _ _ p.trace [] (.shm_open false)
      (bytes "Failed to open shared object") 1 (by simp) hp (by simp) rfl rfl hw

theorem outcome_map_region (role : Role) (env : Env) (p : Proc) (hp : Clean p.trace)
    (hw : role = .writer → 1 < env.argc) :
    Outcome role env (map_region env p) := by
  by_cases h : env.mmap_ok = true
  · simpa [map_region, Proc.log, h, Outcome, hp, Event.fatal] using hw
  · simp only [map_region, Proc.log, die, h]
    exact outcome_abort_close _ _ _ p.trace (bytes "Failed to map shared object") (by simp)
      hp hw

theorem outcome_unmap (role : Role) (env : Env) (p : Proc) (hp : Clean p.trace)
    (hw : role = .writer → 1 < env.argc) :
    Outcome role env (unmap env p) := by
  by_cases h : env.munmap_ok = true
  · simpa [unmap, Proc.log, h, Outcome, hp, Event.fatal] using hw
  · simp only [unmap, Proc.log, die, h]
    exact outcome_abort _ _ _ p.trace [] (.munmap false) (bytes "munmap failed") 4
      (by simp) hp (by simp) rfl rfl hw

theorem outcome_destroy (role : Role) (env : Env) (p : Proc) (hp : Clean p.trace)
    (hw : role = .writer → 1 < env.argc) :
    Outcome role env (destroy env p) := by
  cases h : env.shm_unlink_err with
  | none => simpa [destroy, Proc.log, h, Outcome, hp, Event.fatal] using Or.inl hw
  | some e =>
    by_cases he : e = ENOENT
    · simpa [destroy, Proc.log, h, he, Outcome, hp, Event.fatal] using Or.inl hw
    · simp only [destroy, Proc.log, die, h, he, ne_eq, not_false_eq_true, if_true]
      exact outcome_abort _ _ _ p.trace [] (.shm_unlink (some e)) (bytes "shm_unlink failed") 5
        (by simp) hp (by simp) (by simp [Event.fatal, he]) rfl hw

theorem outcome_run_loop (role : Role) (env : Env) (hw : role = .writer → 1 < env.argc)
    (fuel : Nat) (p : Proc) (hp : Clean p.trace) :
    Outcome role env (run_loop (do_job role env) fuel p) ∧
    ∀ c q, run_loop (do_job role env) fuel p ≠ .exit c q := by
  obtain ⟨⟨⟨evs, ht, hj⟩, _, _⟩, hx, _⟩ := run_loop_spec role env fuel p
  refine ⟨?_, hx⟩
  have hc : Clean (run_loop (do_job role env) fuel p).proc.trace := by
    rw [ht]; exact (clean_append _ _).2 ⟨hp, clean_of_isJob hj⟩
  cases hr : run_loop (do_job role env) fuel p with
  | exit c q => exact absurd hr (hx c q)
  | cont q => rw [hr] at hc; exact ⟨hc, hw⟩
  | running q => rw [hr] at hc; exact ⟨hc, hw⟩
  | killed s q => rw [hr] at hc; exact ⟨hc, hw⟩

theorem setup_not_running (role : Role) (env : Env) (p q : Proc) :
    setup role env p ≠ .running q := by
  cases role <;> simp only [setup, die] <;> split_ifs <;> simp

theorem open_and_size_not_running (env : Env) (p q : Proc) :
    open_and_size env p ≠ .running q := by
  simp only [open_and_size, die]
  split_ifs <;> simp

theorem map_region_not_running (env : Env) (p q : Proc) :
    map_region env p ≠ .running q := by
  simp only [map_region, die]
  split_ifs <;> simp

theorem setup_not_killed (role : Role) (env : Env) (p q : Proc) (s : Signal) :
    setup role env p ≠ .killed s q := by
  cases role <;> simp only [setup, die] <;> split_ifs <;> simp

theorem open_and_size_not_killed (env : Env) (p q : Proc) (s : Signal) :
    open_and_size env p ≠ .killed s q := by
  simp only [open_and_size, die]
  split_ifs <;> simp

theorem map_region_not_killed (env : Env) (p q : Proc) (s : Signal) :
    map_region env p ≠ .killed s q := by
  simp only [map_region, die]
  split_ifs <;> simp

theorem bind_not_running (r : Res) (f : Proc → Res) (hr : ∀ q, r ≠ .running q)
    (hf : ∀ p q, f p ≠ .running q) : ∀ q, r.bind f ≠ .running q := by
  intro q
  cases r with
  | cont p => exact hf p q
  | exit c p => simp [Res.bind]
  | running p => exact absurd rfl (hr p)
  | killed s p => simp [Res.bind]

theorem bind_not_killed (r : Res) (f : Proc → Res) (hr : ∀ s q, r ≠ .killed s q)
    (hf : ∀ p s q, f p ≠ .killed s q) : ∀ s q, r.bind f ≠ .killed s q := by
  intro s q
  cases r with
  | cont p => exact hf p s q
  | exit c p => simp [Res.bind]
  | running p => simp [Res.bind]
  | killed s2 p => exact absurd rfl (hr s2 p)

theorem startup_not_running (role : Role) (env : Env) (p q : Proc) :
    startup role env p ≠ .running q :=
  bind_not_running _ _ (setup_not_running role env p)
    (fun p1 => bind_not_running _ _ (open_and_size_not_running env p1)
      (fun p2 => map_region_not_running env p2)) q

theorem startup_not_killed (role : Role) (env : Env) (p q : Proc) (s : Signal) :
    startup role env p ≠ .killed s q :=
  bind_not_killed _ _ (fun s q => setup_not_killed role env p q s)
    (fun p1 => bind_not_killed _ _ (fun s q => open_and_size_not_killed env p1 q s)
      (fun p2 s q => map_region_not_killed env p2 q s)) s q

theorem outcome_startup (role : Role) (env : Env) (p : Proc) (hp : Clean p.trace) :
    Outcome role env (startup role env p) :=
  outcome_bind role env _ _ (outcome_setup role env p hp)
    (fun q hq hw => outcome_bind role env _ _ (outcome_open_and_size role env q hq hw)
      (fun q2 hq2 hw2 => outcome_map_region role env q2 hq2 hw2)
      (open_and_size_not_running env q))
    (setup_not_running role env p)

theorem outcome_release (role : Role) (env : Env) (p : Proc) (hp : Clean p.trace)
    (hw : role = .writer → 1 < env.argc) :
    Outcome role env ((unmap env p).bind fun p => destroy env p) := by
  refine outcome_bind role env _ _ (outcome_unmap role env p hp hw)
    (fun q hq hw2 => outcome_destroy role env q hq hw2) ?_
  intro q
  simp only [unmap, die]
  split_ifs <;> simp

theorem outcome_main (fuel : Nat) (role : Role) (env : Env) (p : Proc) (hp : Clean p.trace) :
    Outcome role env (main fuel role env p) := by
  unfold main
  have hs := outcome_startup role env p hp
  cases h : startup role env p with
  | running q => exact absurd h (startup_not_running role env p q)
  | killed s q => exact absurd h (startup_not_killed role env p q s)
  | exit c q => rw [h] at hs; exact hs
  | cont q =>
    rw [h] at hs
    have hl := outcome_run_loop role env hs.2 fuel q hs.1
    simp only [Res.bind]
    cases h2 : run_loop (do_job role env) fuel q with
    | running q2 => rw [h2] at hl; exact hl.1
    | killed s q2 => rw [h2] at hl; exact hl.1
    | exit c q2 => exact absurd h2 (hl.2 c q2)
    | cont q2 =>
      rw [h2] at hl
      exact outcome_release role env q2 hl.1.1 hl.1.2

theorem aborted_mem {c : Nat} {t : List Event} (h : Aborted c t) :
    ∃ e, e.fatal = true ∧ c = e.die_code ∧ ∀ x, x.fatal = true → (x ∈ t ↔ x = e) := by
  obtain ⟨pre, e, msg, hpre, he, hc, ht⟩ := h
  refine ⟨e, he, hc, ?_⟩
  intro x hx
  have hnp : x ∉ pre := fun hm => by simp [hpre x hm] at hx
  rcases ht with ht | ⟨_, ht⟩ <;> subst ht
  · simp only [List.mem_append, List.mem_cons, List.mem_singleton, List.not_mem_nil, or_false]
    constructor
    · rintro (h | h | h)
      · exact absurd h hnp
      · exact h
      · subst h; simp [Event.fatal] at hx
    · intro h; exact Or.inr (Or.inl h)
  · simp only [List.mem_append, List.mem_cons, List.mem_singleton, List.not_mem_nil, or_false]
    constructor
    · rintro (h | h | h | h)
      · exact absurd h hnp
      · exact h
      · subst h; simp [Event.fatal] at hx
      · subst h; simp [Event.fatal] at hx
    · intro h; exact Or.inr (Or.inl h)

theorem taxonomy_of_outcome (role : Role) (env : Env) (c : Nat) (q : Proc)
    (h : Outcome role env (.exit c q)) :
    (c = 1 ↔ Event.shm_open false ∈ q.trace) ∧
    (c = 2 ↔ Event.fstat none ∈ q.trace) ∧
    (c = 3 ↔ Event.mmap false ∈ q.trace) ∧
    (c = 4 ↔ Event.munmap false ∈ q.trace) ∧
    (c = 5 ↔ ∃ e, e ≠ ENOENT ∧ Event.shm_unlink (some e) ∈ q.trace) ∧
    (c = 10 ↔ Event.signal false ∈ q.trace) ∧
    (c = 11 ↔ role = .writer ∧ env.argc ≤ 1) ∧
    (c = 0 ↔ (∀ x ∈ q.trace, x.fatal = false) ∧ ¬ (role = .writer ∧ env.argc ≤ 1)) := by
  rcases h with ⟨hcl, hc⟩ | ⟨hab, hw⟩
  · have hno : ∀ x, x.fatal = true → x ∉ q.trace := fun x hx hm => by simp [hcl x hm] at hx
    have h5 : ¬ ∃ e, e ≠ ENOENT ∧ Event.shm_unlink (some e) ∈ q.trace := by
      rintro ⟨e, he, hm⟩
      exact hno _ (by simp [Event.fatal, he]) hm
    have hcfg : (c = 11 ↔ role = .writer ∧ env.argc ≤ 1) := by
      rcases hc with ⟨h0, hw⟩ | ⟨h11, hr, ha⟩
      · subst h0
        constructor
        · intro h; omega
        · rintro ⟨hr, ha⟩; have := hw hr; omega
      · simp [h11, hr, ha]
    have hc' : c = 0 ∨ c = 11 := by
      rcases hc with ⟨h0, _⟩ | ⟨h11, _⟩
      · exact Or.inl h0
      · exact Or.inr h11
    refine ⟨?_, ?_, ?_, ?_, ?_, ?_, hcfg, ?_⟩
    · simp only [hno (.shm_open false) rfl, iff_false]; omega
    · simp only [hno (.fstat none) rfl, iff_false]; omega
    · simp only [hno (.mmap false) rfl, iff_false]; omega
    · simp only [hno (.munmap false) rfl, iff_false]; omega
    · simp only [h5, iff_false]; omega
    · simp only [hno (.signal false) rfl, iff_false]; omega
    · rw [← hcfg]
      constructor
      · intro h; exact ⟨hcl, by omega⟩
      · intro h; omega
  · obtain ⟨e, he, hc, hmem⟩ := aborted_mem hab
    have hcfg : ¬ (role = .writer ∧ env.argc ≤ 1) := by
      rintro ⟨hr, ha⟩; have := hw hr; omega
    have hcl : ¬ ∀ x ∈ q.trace, x.fatal = false := by
      intro h
      have := h e ((hmem e he).2 rfl)
      simp [he] at this
    have h5 : (∃ n, n ≠ ENOENT ∧ Event.shm_unlink (some n) ∈ q.trace) ↔
        ∃ n, n ≠ ENOENT ∧ Event.shm_unlink (some n) = e := by
      constructor
      · rintro ⟨n, hn, hm⟩
        exact ⟨n, hn, (hmem _ (by simp [Event.fatal, hn])).1 hm⟩
      · rintro ⟨n, hn, hm⟩
        exact ⟨n, hn, (hmem _ (by simp [Event.fatal, hn])).2 hm⟩
    rw [hmem (.shm_open false) rfl, hmem (.fstat none) rfl, hmem (.mmap false) rfl,
      hmem (.munmap false) rfl, hmem (.signal false) rfl, h5]
    subst hc
    cases e with
    | signal b => cases b <;> simp [Event.fatal] at he; simp [Event.die_code, hcfg, hcl]
    | shm_open b => cases b <;> simp [Event.fatal] at he; simp [Event.die_code, hcfg, hcl]
    | fstat s => cases s <;> simp [Event.fatal] at he; simp [Event.die_code, hcfg, hcl]
    | mmap b => cases b <;> simp [Event.fatal] at he; simp [Event.die_code, hcfg, hcl]
    | munmap b => cases b <;> simp [Event.fatal] at he; simp [Event.die_code, hcfg, hcl]
    | shm_unlink s =>
      cases s with
      | none => simp [Event.fatal] at he
      | some n =>
        have hn : n ≠ ENOENT := by simpa [Event.fatal] using he
        simp [Event.die_code, hcfg, hcl, hn]
    | _ => simp [Event.fatal] at he

/-! ## Shape of the trace of a run -/

/-- Shape of every run: what `main` does after a successful start. -/
theorem main_shape (fuel : Nat) (role : Role) (env : Env) (p : Proc) :
    (∃ c q, startup role env p = .exit c q ∧ main fuel role env p = .exit c q) ∨
    (∃ q1 evs, startup role env p = .cont q1 ∧ (∀ x ∈ evs, x.isJob = true) ∧
      ((∃ q, main fuel role env p = .running q ∧ q.trace = q1.trace ++ evs) ∨
       (∃ s q, main fuel role env p = .killed s q ∧ q.trace = q1.trace ++ evs) ∨
       (∃ q msg, main fuel role env p = .exit 4 q ∧ env.munmap_ok = false ∧
          q.trace = q1.trace ++ evs ++ [.munmap false, .printf (error_line msg)]) ∨
       (∃ q, main fuel role env p = .exit 0 q ∧ env.munmap_ok = true ∧
          (env.shm_unlink_err = none ∨ env.shm_unlink_err = some ENOENT) ∧
          q.trace = q1.trace ++ evs ++ [.munmap true, .shm_unlink env.shm_unlink_err]) ∨
       (∃ q e msg, main fuel role env p = .exit 5 q ∧ env.munmap_ok = true ∧
          env.shm_unlink_err = some e ∧ e ≠ ENOENT ∧
          q.trace = q1.trace ++ evs ++
            [.munmap true, .shm_unlink (some e), .printf (error_line msg)]))) := by
  cases hs : startup role env p with
  | running q => exact absurd hs (startup_not_running role env p q)
  | killed s q => exact absurd hs (startup_not_killed role env p q s)
  | exit c q => exact Or.inl ⟨c, q, rfl, by simp [main, hs, Res.bind]⟩
  | cont q1 =>
    right
    obtain ⟨⟨⟨evs, ht, hj⟩, _, _⟩, hx, _⟩ := run_loop_spec role env fuel q1
    refine ⟨q1, evs, rfl, hj, ?_⟩
    cases hl : run_loop (do_job role env) fuel q1 with
    | exit c q => exact absurd hl (hx c q)
    | running q =>
      left
      rw [hl] at ht
      exact ⟨q, by simp [main, hs, hl, Res.bind], ht⟩
    | killed s q =>
      right; left
      rw [hl] at ht
      exact ⟨s, q, by simp [main, hs, hl, Res.bind], ht⟩
    | cont q2 =>
      right; right
      rw [hl] at ht
      simp only [Res.proc] at ht
      have hmain : main fuel role env p = (unmap env q2).bind fun p => destroy env p := by
        simp [main, hs, hl, Res.bind]
      rw [hmain]
      by_cases hm : env.munmap_ok = true
      · right
        cases hu : env.shm_unlink_err with
        | none =>
          left
          simp only [unmap, destroy, hm, hu, Res.bind, if_true]
          refine ⟨_, rfl, ?_, ?_, ?_⟩ <;> simp [Proc.log, ht]
        | some e =>
          by_cases he : e = ENOENT
          · left
            simp only [unmap, destroy, hm, hu, he, Res.bind, if_true, ne_eq, not_true_eq_false,
              if_false]
            refine ⟨_, rfl, ?_, ?_, ?_⟩ <;> simp [Proc.log, ht]
          · right
            simp only [unmap, destroy, die, hm, hu, he, Res.bind, if_true, ne_eq,
              not_false_eq_true]
            exact ⟨_, e, bytes "shm_unlink failed", rfl, trivial, rfl, he,
              by simp [Proc.log, ht]⟩
      · left
        simp only [unmap, die, hm, Res.bind, if_false]
        exact ⟨_, bytes "munmap failed", rfl, by simp, by simp [Proc.log, ht]⟩

theorem bind_proc_prop (P : Proc → Prop) (r : Res) (f : Proc → Res) (hr : P r.proc)
    (hf : ∀ q, P q → P (f q).proc) : P (r.bind f).proc := by
  cases r with
  | cont q => exact hf q hr
  | exit c q => exact hr
  | running q => exact hr
  | killed s q => exact hr

theorem setup_free_release (role : Role) (env : Env) (p : Proc)
    (hp : Free Event.isRelease p.trace) : Free Event.isRelease (setup role env p).proc.trace := by
  cases role with
  | reader =>
    by_cases h : env.signal_ok = true <;>
      simp [setup, Proc.log, die, Res.proc, h, hp, Event.isRelease]
  | writer =>
    by_cases h : env.argc > 1 <;>
      simp [setup, Proc.log, die, Res.proc, h, hp, Event.isRelease]

theorem open_and_size_free_release (env : Env) (p : Proc)
    (hp : Free Event.isRelease p.trace) :
    Free Event.isRelease (open_and_size env p).proc.trace := by
  by_cases h1 : env.shm_open_ok = true <;> by_cases h2 : env.fstat_ok = true <;>
    by_cases h3 : p.obj.getD 0 = 0 <;> by_cases h4 : env.refstat_ok = true <;>
    cases h5 : env.ftruncate_err <;>
    simp [open_and_size, Proc.log, die, Res.proc, h1, h2, h3, h4, h5, hp, Event.isRelease]

theorem map_region_free_release (env : Env) (p : Proc)
    (hp : Free Event.isRelease p.trace) :
    Free Event.isRelease (map_region env p).proc.trace := by
  by_cases h : env.mmap_ok = true <;>
    simp [map_region, Proc.log, die, Res.proc, h, hp, Event.isRelease]

theorem startup_free_release (role : Role) (env : Env) (p : Proc)
    (hp : Free Event.isRelease p.trace) :
    Free Event.isRelease (startup role env p).proc.trace :=
  bind_proc_prop (fun q => Free Event.isRelease q.trace) _ _ (setup_free_release role env p hp)
    (fun q hq => bind_proc_prop (fun q => Free Event.isRelease q.trace) _ _
      (open_and_size_free_release env q hq) (fun q2 hq2 => map_region_free_release env q2 hq2))

theorem split_after {α : Type} (a b pre post : List α) (x m : α)
    (h : pre ++ x :: post = a ++ m :: b) (hxa : x ∉ a) (hxm : x ≠ m) : m ∈ pre := by
  induction a generalizing pre with
  | nil =>
    cases pre with
    | nil => simp at h; exact absurd h.1 hxm
    | cons c pre' => simp at h; simp [h.1]
  | cons c a ih =>
    cases pre with
    | nil => simp at h; exact absurd h.1 (by intro hc; exact hxa (by simp [hc]))
    | cons d pre' =>
      simp at h
      have := ih pre' h.2 (fun hm => hxa (by simp [hm]))
      simp [this]

theorem free_of_isJob {P : Event → Bool} {evs : List Event}
    (hP : ∀ x, x.isJob = true → P x = false) (h : ∀ x ∈ evs, x.isJob = true) : Free P evs :=
  fun x hx => hP x (h x hx)

theorem isRelease_of_isJob (x : Event) (h : x.isJob = true) : x.isRelease = false := by
  cases x <;> simp [Event.isJob] at h <;> rfl

/-- C6 (destroy tolerance).  When the start succeeded, the loop has ended and `munmap` has
succeeded, `main` exits with 0 if `shm_unlink` succeeds or fails with `ENOENT`, and it exits
with 5 exactly when `shm_unlink` fails with another `errno`.  On every run, each
`shm_unlink` in the trace comes after a `munmap`. -/
theorem destroy_tolerance :
    (∀ (fuel : Nat) (role : Role) (env : Env) (p p1 p2 : Proc),
      startup role env p = .cont p1 → run_loop (do_job role env) fuel p1 = .cont p2 →
      env.munmap_ok = true →
      ((env.shm_unlink_err = none ∨ env.shm_unlink_err = some ENOENT) →
        (main fuel role env p).code = some 0) ∧
      ((main fuel role env p).code = some 5 ↔
        ∃ e, env.shm_unlink_err = some e ∧ e ≠ ENOENT)) ∧
    (∀ (fuel : Nat) (role : Role) (env : Env) (obj : Option Nat) (mem : Mem)
      (inp : List Nat) (pre post : List Event) (err : Option Nat),
      (main fuel role env (Proc.start obj mem inp)).proc.trace
        = pre ++ Event.shm_unlink err :: post →
      ∃ ok, Event.munmap ok ∈ pre) := by
  constructor
  · intro fuel role env p p1 p2 h1 h2 h3
    have hmain : main fuel role env p = destroy env { p2.log (.munmap true) with mapped := false } := by
      simp [main, h1, h2, Res.bind, unmap, h3]
    rw [hmain]
    cases hu : env.shm_unlink_err with
    | none => simp [destroy, hu, Res.code]
    | some e =>
      by_cases he : e = ENOENT
      · simp [destroy, hu, he, Res.code]
      · simp [destroy, die, hu, he, Res.code]
  · intro fuel role env obj mem inp pre post err h
    have hfree := startup_free_release role env (Proc.start obj mem inp) (by simp [Proc.start])
    have hmem : Event.shm_unlink err ∈ (main fuel role env (Proc.start obj mem inp)).proc.trace := by
      rw [h]; simp
    rcases main_shape fuel role env (Proc.start obj mem inp) with
      ⟨c, q, hs, hm⟩ | ⟨q1, evs, hs, hj, hcase⟩
    · rw [hm] at hmem
      rw [hs] at hfree
      have := hfree _ hmem
      simp [Event.isRelease] at this
    · rw [hs] at hfree
      simp only [Res.proc] at hfree
      have hev : Free Event.isRelease evs := free_of_isJob isRelease_of_isJob hj
      have hnot : Event.shm_unlink err ∉ q1.trace ++ evs := by
        intro hm
        have := (free_append _ _ _).2 ⟨hfree, hev⟩ _ hm
        simp [Event.isRelease] at this
      rcases hcase with ⟨q, hm, ht⟩ | ⟨s, q, hm, ht⟩ | ⟨q, msg, hm, _, ht⟩ |
        ⟨q, hm, _, _, ht⟩ | ⟨q, e, msg, hm, _, _, _, ht⟩
      · rw [hm] at hmem; simp only [Res.proc] at hmem
        rw [ht] at hmem
        exact absurd hmem hnot
      · rw [hm] at hmem; simp only [Res.proc] at hmem
        rw [ht] at hmem
        exact absurd hmem hnot
      · rw [hm] at hmem; simp only [Res.proc] at hmem
        rw [ht] at hmem
        simp only [List.mem_append, List.mem_cons, List.mem_singleton, List.not_mem_nil,
          or_false] at hmem
        rcases hmem with hmem | hmem | hmem
        · exact absurd (List.mem_append.2 hmem) hnot
        · cases hmem
        · cases hmem
      · rw [hm] at h; simp only [Res.proc] at h
        rw [ht] at h
        exact ⟨true, split_after (q1.trace ++ evs) [.shm_unlink env.shm_unlink_err] pre post _ _
          h.symm hnot (by simp)⟩
      · rw [hm] at h; simp only [Res.proc] at h
        rw [ht] at h
        exact ⟨true, split_after (q1.trace ++ evs) [.shm_unlink (some e), .printf (error_line msg)]
          pre post _ _ h.symm hnot (by simp)⟩

/-! ## Frame properties and termination -/

theorem setup_frame (role : Role) (env : Env) (p : Proc) :
    (setup role env p).proc.jobs = p.jobs ∧ (setup role env p).proc.faults = p.faults := by
  cases role with
  | reader => by_cases h : env.signal_ok = true <;> simp [setup, Proc.log, die, Res.proc, h]
  | writer => by_cases h : env.argc > 1 <;> simp [setup, Proc.log, die, Res.proc, h]

theorem open_and_size_frame (env : Env) (p : Proc) :
    (open_and_size env p).proc.jobs = p.jobs ∧ (open_and_size env p).proc.faults = p.faults := by
  by_cases h1 : env.shm_open_ok = true <;> by_cases h2 : env.fstat_ok = true <;>
    by_cases h3 : p.obj.getD 0 = 0 <;> by_cases h4 : env.refstat_ok = true <;>
    cases h5 : env.ftruncate_err <;>
    simp [open_and_size, Proc.log, die, Res.proc, h1, h2, h3, h4, h5]

theorem map_region_frame (env : Env) (p : Proc) :
    (map_region env p).proc.jobs = p.jobs ∧ (map_region env p).proc.faults = p.faults ∧
    ∀ q, map_region env p = .cont q → q.mapped = true := by
  by_cases h : env.mmap_ok = true
  · simp only [map_region, Proc.log, die, Res.proc, h, if_true]
    refine ⟨trivial, trivial, ?_⟩
    intro q hq
    cases hq
    rfl
  · simp [map_region, Proc.log, die, Res.proc, h]

theorem startup_frame (role : Role) (env : Env) (p : Proc) :
    (startup role env p).proc.jobs = p.jobs ∧ (startup role env p).proc.faults = p.faults := by
  refine bind_proc_prop (fun q => q.jobs = p.jobs ∧ q.faults = p.faults) _ _
    (setup_frame role env p) (fun q hq => ?_)
  refine bind_proc_prop (fun q => q.jobs = p.jobs ∧ q.faults = p.faults) _ _ ?_ (fun q2 hq2 => ?_)
  · have := open_and_size_frame env q
    exact ⟨this.1.trans hq.1, this.2.trans hq.2⟩
  · have := map_region_frame env q2
    exact ⟨this.1.trans hq2.1, this.2.1.trans hq2.2⟩

theorem startup_mapped (role : Role) (env : Env) (p q : Proc)
    (h : startup role env p = .cont q) : q.mapped = true := by
  obtain ⟨p1, _, h1⟩ := bind_eq_cont h
  obtain ⟨p2, _, h2⟩ := bind_eq_cont h1
  exact (map_region_frame env p2).2.2 q h2

theorem release_frame (env : Env) (p : Proc) :
    ((unmap env p).bind fun p => destroy env p).proc.faults = p.faults ∧
    ∃ c q, ((unmap env p).bind fun p => destroy env p) = .exit c q := by
  by_cases hm : env.munmap_ok = true
  · cases hu : env.shm_unlink_err with
    | none => simp [unmap, destroy, die, Res.bind, Res.proc, Proc.log, hm, hu]
    | some e =>
      by_cases he : e = ENOENT <;>
        simp [unmap, destroy, die, Res.bind, Res.proc, Proc.log, hm, hu, he]
  · simp [unmap, destroy, die, Res.bind, Res.proc, Proc.log, hm]

/-- The main flow of either role dereferences `data` only while the region is mapped. -/
theorem main_flow_window (fuel : Nat) (role : Role) (env : Env) (p : Proc) :
    (main fuel role env p).proc.faults = p.faults := by
  have hf := (startup_frame role env p).2
  unfold main
  cases hs : startup role env p with
  | running q => exact absurd hs (startup_not_running role env p q)
  | killed s q => exact absurd hs (startup_not_killed role env p q s)
  | exit c q => rw [hs] at hf; exact hf
  | cont q1 =>
    rw [hs] at hf
    simp only [Res.proc] at hf
    have hm := startup_mapped role env p q1 hs
    obtain ⟨⟨_, _, lf⟩, _, _⟩ := run_loop_spec role env fuel q1
    simp only [Res.bind]
    cases hl : run_loop (do_job role env) fuel q1 with
    | running q => rw [hl] at lf; exact (lf hm).trans hf
    | killed s q => rw [hl] at lf; exact (lf hm).trans hf
    | exit c q => rw [hl] at lf; exact (lf hm).trans hf
    | cont q2 =>
      rw [hl] at lf
      simp only [Res.proc] at lf
      exact (release_frame env q2).1.trans ((lf hm).trans hf)

/-- No run of `main` of either role is killed for a dereference outside the mapped window:
a process that `main` lets die of `SIGSEGV` was storing a token longer than the accessible
bytes. -/
theorem main_flow_mapped (fuel : Nat) (role : Role) (env : Env) (p q : Proc) (s : Signal)
    (h : main fuel role env p = .killed s q) : q.mapped = true := by
  unfold main at h
  cases hs : startup role env p with
  | running q1 => exact absurd hs (startup_not_running role env p q1)
  | killed s1 q1 => exact absurd hs (startup_not_killed role env p q1 s1)
  | exit c q1 => rw [hs] at h; simp [Res.bind] at h
  | cont q1 =>
    rw [hs] at h
    simp only [Res.bind] at h
    have hm := startup_mapped role env p q1 hs
    obtain ⟨⟨_, lm, _⟩, _, _⟩ := run_loop_spec role env fuel q1
    cases hl : run_loop (do_job role env) fuel q1 with
    | running q2 => rw [hl] at h; simp at h
    | exit c q2 => rw [hl] at h; simp at h
    | killed s2 q2 =>
      rw [hl] at h lm
      simp only [Res.killed.injEq] at h
      rw [← h.2]
      exact lm.trans hm
    | cont q2 =>
      rw [hl] at h
      obtain ⟨c, q3, hr⟩ := (release_frame env q2).2
      simp only [Res.bind] at hr
      rw [hr] at h
      cases h

theorem main_of_startup_code (fuel : Nat) (role : Role) (env : Env) (p : Proc) (c : Nat)
    (h : (startup role env p).code = some c) : (main fuel role env p).code = some c := by
  cases hs : startup role env p with
  | exit c1 q => rw [hs] at h; simpa [main, hs, Res.bind] using h
  | cont q => rw [hs] at h; simp [Res.code] at h
  | running q => rw [hs] at h; simp [Res.code] at h
  | killed s q => rw [hs] at h; simp [Res.code] at h

theorem startup_codes (role : Role) (env : Env) (p : Proc) :
    (role = .writer → env.argc ≤ 1 → (startup role env p).code = some 11) ∧
    (role = .reader → env.signal_ok = false → (startup role env p).code = some 10) ∧
    (setup_ok role env → env.shm_open_ok = false → (startup role env p).code = some 1) ∧
    (setup_ok role env → env.shm_open_ok = true → env.fstat_ok = false →
      (startup role env p).code = some 2) ∧
    (setup_ok role env → env.shm_open_ok = true → env.fstat_ok = true → p.obj.getD 0 = 0 →
      env.refstat_ok = false → (startup role env p).code = some 2) ∧
    (setup_ok role env → env.shm_open_ok = true → env.fstat_ok = true →
      (p.obj.getD 0 = 0 → env.refstat_ok = true) → env.mmap_ok = false →
      (startup role env p).code = some 3) ∧
    ((∃ q, startup role env p = .cont q) ↔
      setup_ok role env ∧ env.shm_open_ok = true ∧ env.fstat_ok = true ∧
      (p.obj.getD 0 = 0 → env.refstat_ok = true) ∧ env.mmap_ok = true) := by
  cases role with
  | reader =>
    by_cases h0 : env.signal_ok = true <;> by_cases h1 : env.shm_open_ok = true <;>
      by_cases h2 : env.fstat_ok = true <;> by_cases h3 : p.obj.getD 0 = 0 <;>
      by_cases h4 : env.refstat_ok = true <;> by_cases h6 : env.mmap_ok = true <;>
      cases h5 : env.ftruncate_err <;>
      simp [startup, setup, open_and_size, map_region, Proc.log, die, Res.bind, Res.code,
        setup_ok, h0, h1, h2, h3, h4, h5, h6]
  | writer =>
    by_cases h0 : env.argc > 1 <;> by_cases h1 : env.shm_open_ok = true <;>
      by_cases h2 : env.fstat_ok = true <;> by_cases h3 : p.obj.getD 0 = 0 <;>
      by_cases h4 : env.refstat_ok = true <;> by_cases h6 : env.mmap_ok = true <;>
      cases h5 : env.ftruncate_err <;>
      simp [startup, setup, open_and_size, map_region, Proc.log, die, Res.bind, Res.code,
        setup_ok, h0, h1, h2, h3, h4, h5, h6]

theorem release_codes (env : Env) (p : Proc) :
    (env.munmap_ok = false → ((unmap env p).bind fun p => destroy env p).code = some 4) ∧
    (env.munmap_ok = true → ∀ e, env.shm_unlink_err = some e → e ≠ ENOENT →
      ((unmap env p).bind fun p => destroy env p).code = some 5) ∧
    (env.munmap_ok = true → (env.shm_unlink_err = none ∨ env.shm_unlink_err = some ENOENT) →
      ((unmap env p).bind fun p => destroy env p).code = some 0) := by
  by_cases hm : env.munmap_ok = true
  · cases hu : env.shm_unlink_err with
    | none => simp [unmap, destroy, die, Res.bind, Res.code, Proc.log, hm, hu]
    | some e =>
      by_cases he : e = ENOENT <;>
        simp [unmap, destroy, die, Res.bind, Res.code, Proc.log, hm, hu, he]
  · simp [unmap, destroy, die, Res.bind, Res.code, Proc.log, hm]

/-- C4, amended (exit statuses).  For either role, all call results and all start states.
From the call results to the status: `main` exits with 11 when the writer has no argument,
with 10 when the reader's `signal` fails and, the setup having succeeded, with 1 when
`shm_open` fails, with 2 when the first `fstat` fails or, on an empty object, the second
one, and with 3 when `mmap` fails; the start succeeds exactly when none of these happens;
and when the loop has ended `main` exits with 4 when `munmap` fails, with 5 when
`shm_unlink` fails with an `errno` other than `ENOENT`, and with 0 otherwise.  From the
status to the calls: when `main` exits with status `c`, `c` is 1, 2, 3, 4, 5 or 10 exactly
when the trace holds a failed `shm_open`, `fstat`, `mmap`, `munmap`, `shm_unlink` with an
`errno` other than `ENOENT`, or `signal`; it is 11 exactly when the writer was started
without an argument; and it is 0 exactly when none of these happened.  Every run has exited,
or is still in the loop, having done one job per unit of fuel, or was killed by a signal
after a successful start; and once some iteration leaves `"q"` in the buffer, more fuel than
its number makes `main` exit. -/
theorem exit_code_taxonomy (role : Role) (env : Env) (obj : Option Nat) (mem : Mem)
    (inp : List Nat) :
    (role = .writer → env.argc ≤ 1 →
      ∀ fuel, (main fuel role env (Proc.start obj mem inp)).code = some 11) ∧
    (role = .reader → env.signal_ok = false →
      ∀ fuel, (main fuel role env (Proc.start obj mem inp)).code = some 10) ∧
    (setup_ok role env → env.shm_open_ok = false →
      ∀ fuel, (main fuel role env (Proc.start obj mem inp)).code = some 1) ∧
    (setup_ok role env → env.shm_open_ok = true → env.fstat_ok = false →
      ∀ fuel, (main fuel role env (Proc.start obj mem inp)).code = some 2) ∧
    (setup_ok role env → env.shm_open_ok = true → env.fstat_ok = true → obj.getD 0 = 0 →
      env.refstat_ok = false →
      ∀ fuel, (main fuel role env (Proc.start obj mem inp)).code = some 2) ∧
    (setup_ok role env → env.shm_open_ok = true → env.fstat_ok = true →
      (obj.getD 0 = 0 → env.refstat_ok = true) → env.mmap_ok = false →
      ∀ fuel, (main fuel role env (Proc.start obj mem inp)).code = some 3) ∧
    ((∃ p1, startup role env (Proc.start obj mem inp) = .cont p1) ↔
      setup_ok role env ∧ env.shm_open_ok = true ∧ env.fstat_ok = true ∧
      (obj.getD 0 = 0 → env.refstat_ok = true) ∧ env.mmap_ok = true) ∧
    (∀ fuel p1 p2, startup role env (Proc.start obj mem inp) = .cont p1 →
      run_loop (do_job role env) fuel p1 = .cont p2 →
      (env.munmap_ok = false →
        (main fuel role env (Proc.start obj mem inp)).code = some 4) ∧
      (env.munmap_ok = true → ∀ e, env.shm_unlink_err = some e → e ≠ ENOENT →
        (main fuel role env (Proc.start obj mem inp)).code = some 5) ∧
      (env.munmap_ok = true → (env.shm_unlink_err = none ∨ env.shm_unlink_err = some ENOENT) →
        (main fuel role env (Proc.start obj mem inp)).code = some 0)) ∧
    (∀ fuel c q, main fuel role env (Proc.start obj mem inp) = .exit c q →
      (c = 1 ↔ Event.shm_open false ∈ q.trace) ∧
      (c = 2 ↔ Event.fstat none ∈ q.trace) ∧
      (c = 3 ↔ Event.mmap false ∈ q.trace) ∧
      (c = 4 ↔ Event.munmap false ∈ q.trace) ∧
      (c = 5 ↔ ∃ e, e ≠ ENOENT ∧ Event.shm_unlink (some e) ∈ q.trace) ∧
      (c = 10 ↔ Event.signal false ∈ q.trace) ∧
      (c = 11 ↔ role = .writer ∧ env.argc ≤ 1) ∧
      (c = 0 ↔ (∀ x ∈ q.trace, x.fatal = false) ∧ ¬ (role = .writer ∧ env.argc ≤ 1))) ∧
    (∀ fuel, (∃ c q, main fuel role env (Proc.start obj mem inp) = .exit c q) ∨
      (∃ q, main fuel role env (Proc.start obj mem inp) = .running q ∧ q.jobs = fuel) ∨
      (∃ s q, main fuel role env (Proc.start obj mem inp) = .killed s q ∧
        ∃ p1, startup role env (Proc.start obj mem inp) = .cont p1)) ∧
    (∀ k fuel (s : Nat → Proc), startup role env (Proc.start obj mem inp) = .cont (s 0) →
      (∀ j ≤ k, iteration (do_job role env) (s j) = .cont (s (j + 1))) →
      strcmp (s (k + 1)).data sentinel = 0 → k < fuel →
      ∃ c q, main fuel role env (Proc.start obj mem inp) = .exit c q) := by
  have hsc := startup_codes role env (Proc.start obj mem inp)
  have hobj : (Proc.start obj mem inp).obj = obj := rfl
  rw [hobj] at hsc
  obtain ⟨s11, s10, s1, s2, s2b, s3, sok⟩ := hsc
  refine ⟨fun a b fuel => main_of_startup_code fuel _ _ _ _ (s11 a b),
    fun a b fuel => main_of_startup_code fuel _ _ _ _ (s10 a b),
    fun a b fuel => main_of_startup_code fuel _ _ _ _ (s1 a b),
    fun a b c fuel => main_of_startup_code fuel _ _ _ _ (s2 a b c),
    fun a b c d e fuel => main_of_startup_code fuel _ _ _ _ (s2b a b c d e),
    fun a b c d e fuel => main_of_startup_code fuel _ _ _ _ (s3 a b c d e),
    sok, ?_, ?_, ?_, ?_⟩
  · intro fuel p1 p2 hs hl
    have hmain : main fuel role env (Proc.start obj mem inp)
        = (unmap env p2).bind fun p => destroy env p := by
      simp [main, hs, hl, Res.bind]
    rw [hmain]
    exact release_codes env p2
  · intro fuel c q h
    have ho := outcome_main fuel role env (Proc.start obj mem inp) (by simp [Proc.start])
    rw [h] at ho
    exact taxonomy_of_outcome role env c q ho
  · intro fuel
    cases hs : startup role env (Proc.start obj mem inp) with
    | running q => exact absurd hs (startup_not_running role env _ q)
    | killed s q => exact absurd hs (startup_not_killed role env _ q s)
    | exit c q => exact Or.inl ⟨c, q, by simp [main, hs, Res.bind]⟩
    | cont q1 =>
      have hj : q1.jobs = 0 := by
        have := (startup_frame role env (Proc.start obj mem inp)).1
        rw [hs] at this
        exact this
      cases hl : run_loop (do_job role env) fuel q1 with
      | running q =>
        right; left
        refine ⟨q, by simp [main, hs, hl, Res.bind], ?_⟩
        rw [(run_loop_spec role env fuel q1).2.2 q hl, hj]; omega
      | killed s q =>
        right; right
        exact ⟨s, q, by simp [main, hs, hl, Res.bind], q1, rfl⟩
      | exit c q => exact Or.inl ⟨c, q, by simp [main, hs, hl, Res.bind]⟩
      | cont q2 =>
        left
        obtain ⟨c, q, hr⟩ := (release_frame env q2).2
        exact ⟨c, q, by simp only [main, hs, hl, Res.bind]; exact hr⟩
  · intro k fuel s hs hit hq hk
    obtain ⟨q2, hl⟩ := run_loop_terminates (do_job role env) k s fuel hit hq hk
    obtain ⟨c, q, hr⟩ := (release_frame env q2).2
    exact ⟨c, q, by simp only [main, hs, hl, Res.bind]; exact hr⟩

/-! ## Start without an argument, and sizing of the object -/

/-- C5 (writer without argument).  For every writer run with `argc <= 1`, whatever the
fuel, the call results and the start state, `main` exits with status 11 and its whole trace
is the `ERROR:` line: it holds no shared-memory operation and no `kill`. -/
theorem writer_fail_fast (fuel : Nat) (env : Env) (obj : Option Nat) (mem : Mem)
    (inp : List Nat) (h : env.argc ≤ 1) :
    ∃ q, main fuel .writer env (Proc.start obj mem inp) = .exit 11 q ∧
      q.trace = [.printf (error_line (bytes "No reader PID specified\n"))] ∧
      ∀ e ∈ q.trace, e.isShmOp = false ∧ e.isKill = false := by
  have hn : ¬ env.argc > 1 := by omega
  refine ⟨_, by simp [main, startup, setup, die, Res.bind, hn]; rfl, ?_, ?_⟩
  · simp [Proc.log, Proc.start]
  · simp [Proc.log, Proc.start, Event.isShmOp, Event.isKill]

/-- A writer started with `argc = 1`. -/
theorem writer_fail_fast_witness :
    ({ env_ok with argc := 1 } : Env).argc ≤ 1 ∧
    ∃ q, main 3 .writer { env_ok with argc := 1 } (Proc.start none [] (bytes "q\n"))
        = .exit 11 q ∧
      q.trace = [.printf (error_line (bytes "No reader PID specified\n"))] ∧
      ∀ e ∈ q.trace, e.isShmOp = false ∧ e.isKill = false :=
  ⟨by decide, writer_fail_fast 3 { env_ok with argc := 1 } none [] (bytes "q\n") (by decide)⟩

theorem reopen_sized (sz : Nat) (hsz : sz ≠ 0) :
    ∀ envs : List Env, reopen (some sz) envs = some sz := by
  intro envs
  induction envs with
  | nil => rfl
  | cons env envs ih =>
    have : (open_and_size env (Proc.start (some sz) [] [])).proc.obj = some sz := by
      by_cases h1 : env.shm_open_ok = true <;> by_cases h2 : env.fstat_ok = true <;>
        simp [open_and_size, Proc.log, die, Res.proc, Proc.start, h1, h2, hsz]
    simp only [reopen, this, ih]

/-- C7 (idempotent creation).  The open-and-size sequence calls `ftruncate` only right
after an `fstat` that reported size 0; on an object of nonzero size it leaves the size
unchanged and makes no `ftruncate` call; and after a sequence whose `ftruncate` succeeded
the size is 255 and stays 255 through any number of further sequences, whatever their call
results. -/
theorem idempotent_creation :
    (∀ (env : Env) (p : Proc) (err : Option Nat),
      Event.ftruncate err ∈ (open_and_size env p).added p →
      p.obj.getD 0 = 0 ∧
      ∃ pre post, (open_and_size env p).added p
        = pre ++ Event.fstat (some 0) :: Event.ftruncate err :: post) ∧
    (∀ (env : Env) (p : Proc) (sz : Nat), p.obj = some sz → sz ≠ 0 →
      (open_and_size env p).proc.obj = some sz ∧
      ∀ err, Event.ftruncate err ∉ (open_and_size env p).added p) ∧
    (∀ (env : Env) (p : Proc) (envs : List Env),
      Event.ftruncate none ∈ (open_and_size env p).added p →
      (open_and_size env p).proc.obj = some SHARED_OBJ_SIZE ∧
      reopen (open_and_size env p).proc.obj envs = some SHARED_OBJ_SIZE) := by
  refine ⟨?_, ?_, ?_⟩
  · intro env p err
    by_cases h1 : env.shm_open_ok = true <;> by_cases h2 : env.fstat_ok = true <;>
      by_cases h3 : p.obj.getD 0 = 0 <;> by_cases h4 : env.refstat_ok = true <;>
      cases h5 : env.ftruncate_err <;>
      simp [open_and_size, Proc.log, die, Res.proc, Res.added, h1, h2, h3, h4, h5] <;>
      intro h <;> subst h <;> exact ⟨[.shm_open true], _, rfl⟩
  · intro env p sz hp hsz
    by_cases h1 : env.shm_open_ok = true <;> by_cases h2 : env.fstat_ok = true <;>
      simp [open_and_size, Proc.log, die, Res.proc, Res.added, h1, h2, hp, hsz]
  · intro env p envs
    have key : Event.ftruncate none ∈ (open_and_size env p).added p →
        (open_and_size env p).proc.obj = some SHARED_OBJ_SIZE := by
      by_cases h1 : env.shm_open_ok = true <;> by_cases h2 : env.fstat_ok = true <;>
        by_cases h3 : p.obj.getD 0 = 0 <;> by_cases h4 : env.refstat_ok = true <;>
        cases h5 : env.ftruncate_err <;>
        simp [open_and_size, Proc.log, die, Res.proc, Res.added, h1, h2, h3, h4, h5]
    intro h
    refine ⟨key h, ?_⟩
    rw [key h]
    exact reopen_sized _ (by decide) envs

/-! ## Propagation of failures -/

theorem fatal_split_unique (pre0 tail pre post : List Event) (e0 e : Event)
    (hpre : Clean pre0) (htail : Clean tail) (he : e.fatal = true)
    (h : pre ++ e :: post = pre0 ++ e0 :: tail) :
    pre = pre0 ∧ e = e0 ∧ post = tail := by
  induction pre0 generalizing pre with
  | nil =>
    cases pre with
    | nil => simp at h; exact ⟨rfl, h.1, h.2⟩
    | cons a pre' =>
      simp at h
      have hm : e ∈ tail := by rw [← h.2]; simp
      have := htail e hm
      simp [he] at this
  | cons c pre0 ih =>
    cases pre with
    | nil =>
      simp at h
      have := hpre c (by simp)
      rw [← h.1, he] at this
      simp at this
    | cons a pre' =>
      simp at h
      have := ih pre' (fun x hx => hpre x (by simp [hx])) h.2
      exact ⟨by rw [h.1, this.1], this.2.1, this.2.2⟩

theorem aborted_at {c : Nat} {t pre post : List Event} {e : Event} (h : Aborted c t)
    (ht : t = pre ++ e :: post) (he : e.fatal = true) :
    c ≠ 0 ∧ Clean pre ∧ ∃ msg, post = [.printf (error_line msg)] ∨
      (e = .mmap false ∧ post = [.close, .printf (error_line msg)]) := by
  obtain ⟨pre0, e0, msg, hpre, he0, hc, hform⟩ := h
  have hc0 : c ≠ 0 := by
    subst hc
    cases e0 <;> simp [Event.fatal] at he0 <;> simp [Event.die_code]
  rcases hform with hf | ⟨hm, hf⟩
  · have := fatal_split_unique pre0 [.printf (error_line msg)] pre post e0 e hpre
      (by simp [Event.fatal]) he (by rw [← ht, hf])
    exact ⟨hc0, this.1 ▸ hpre, msg, Or.inl this.2.2⟩
  · have := fatal_split_unique pre0 [.close, .printf (error_line msg)] pre post e0 e hpre
      (by simp [Event.fatal]) he (by rw [← ht, hf])
    exact ⟨hc0, this.1 ▸ hpre, msg, Or.inr ⟨this.2.1.trans hm, this.2.2⟩⟩

theorem main_trace_ext (fuel : Nat) (role : Role) (env : Env) (p : Proc) :
    ∃ rest, (main fuel role env p).proc.trace = (startup role env p).proc.trace ++ rest ∧
      ∀ x ∈ rest, x.isJob = true ∨ x.isRelease = true ∨ ∃ o, x = .printf o := by
  rcases main_shape fuel role env p with ⟨c, q, hs, hm⟩ | ⟨q1, evs, hs, hj, hcase⟩
  · exact ⟨[], by simp [hs, hm], by simp⟩
  · rw [hs]
    simp only [Res.proc]
    rcases hcase with ⟨q, hm, ht⟩ | ⟨s, q, hm, ht⟩ | ⟨q, msg, hm, _, ht⟩ |
      ⟨q, hm, _, _, ht⟩ | ⟨q, e, msg, hm, _, _, _, ht⟩
    · exact ⟨evs, by simp [hm, Res.proc, ht], fun x hx => Or.inl (hj x hx)⟩
    · exact ⟨evs, by simp [hm, Res.proc, ht], fun x hx => Or.inl (hj x hx)⟩
    · refine ⟨evs ++ [.munmap false, .printf (error_line msg)], by simp [hm, Res.proc, ht], ?_⟩
      intro x hx
      simp only [List.mem_append, List.mem_cons, List.mem_singleton, List.not_mem_nil,
        or_false] at hx
      rcases hx with h | h | h
      · exact Or.inl (hj x h)
      · subst h; exact Or.inr (Or.inl rfl)
      · subst h; exact Or.inr (Or.inr ⟨_, rfl⟩)
    · refine ⟨evs ++ [.munmap true, .shm_unlink env.shm_unlink_err],
        by simp [hm, Res.proc, ht], ?_⟩
      intro x hx
      simp only [List.mem_append, List.mem_cons, List.mem_singleton, List.not_mem_nil,
        or_false] at hx
      rcases hx with h | h | h
      · exact Or.inl (hj x h)
      · subst h; exact Or.inr (Or.inl rfl)
      · subst h; exact Or.inr (Or.inl rfl)
    · refine ⟨evs ++ [.munmap true, .shm_unlink (some e), .printf (error_line msg)],
        by simp [hm, Res.proc, ht], ?_⟩
      intro x hx
      simp only [List.mem_append, List.mem_cons, List.mem_singleton, List.not_mem_nil,
        or_false] at hx
      rcases hx with h | h | h | h
      · exact Or.inl (hj x h)
      · subst h; exact Or.inr (Or.inl rfl)
      · subst h; exact Or.inr (Or.inl rfl)
      · subst h; exact Or.inr (Or.inr ⟨_, rfl⟩)

theorem setup_free_sizing (role : Role) (env : Env) (p : Proc)
    (hp : Free Event.isSizing p.trace) : Free Event.isSizing (setup role env p).proc.trace := by
  cases role with
  | reader =>
    by_cases h : env.signal_ok = true <;>
      simp [setup, Proc.log, die, Res.proc, h, hp, Event.isSizing]
  | writer =>
    by_cases h : env.argc > 1 <;>
      simp [setup, Proc.log, die, Res.proc, h, hp, Event.isSizing]

theorem not_mem_of_free {P : Event → Bool} {t : List Event} {e : Event} (h : Free P t)
    (he : P e = true) : e ∉ t := by
  intro hm
  have := h e hm
  simp [he] at this

theorem open_and_size_sizing (env : Env) (p : Proc) (n : Nat)
    (hp : Free Event.isSizing p.trace)
    (hm : Event.ftruncate (some n) ∈ (open_and_size env p).proc.trace) :
    (∃ pre post s, (open_and_size env p).proc.trace
      = pre ++ Event.ftruncate (some n) :: Event.printf (sizing_warning n) ::
          Event.fstat s :: post) ∧
    (Event.fstat none ∉ (open_and_size env p).proc.trace → ∃ q, open_and_size env p = .cont q) := by
  have hn : Event.ftruncate (some n) ∉ p.trace := not_mem_of_free hp rfl
  by_cases h1 : env.shm_open_ok = true <;> by_cases h2 : env.fstat_ok = true <;>
    by_cases h3 : p.obj.getD 0 = 0 <;> by_cases h4 : env.refstat_ok = true <;>
    cases h5 : env.ftruncate_err <;>
    simp [open_and_size, Proc.log, die, Res.proc, h1, h2, h3, h4, h5, hn] at hm ⊢
  · subst hm
    exact ⟨p.trace ++ [.shm_open true, .fstat (some 0)],
      [.printf (size_report 0)], some 0, by simp⟩
  · subst hm
    exact ⟨p.trace ++ [.shm_open true, .fstat (some 0)],
      [.printf (error_line (bytes "Failed to check shared object size"))], none, by simp⟩

theorem map_region_trace (env : Env) (p : Proc) :
    ∃ b u, (map_region env p).proc.trace = p.trace ++ Event.mmap b :: u ∧
      Free Event.isSizing (Event.mmap b :: u) := by
  by_cases h : env.mmap_ok = true
  · exact ⟨true, [.close], by simp [map_region, Proc.log, Res.proc, h], by simp [Event.isSizing]⟩
  · exact ⟨false, [.close, .printf (error_line (bytes "Failed to map shared object"))],
      by simp [map_region, Proc.log, die, Res.proc, h], by simp [Event.isSizing]⟩

theorem startup_sizing (role : Role) (env : Env) (p : Proc) (n : Nat)
    (hp : Free Event.isSizing p.trace)
    (hm : Event.ftruncate (some n) ∈ (startup role env p).proc.trace) :
    (∃ pre post s, (startup role env p).proc.trace
      = pre ++ Event.ftruncate (some n) :: Event.printf (sizing_warning n) ::
          Event.fstat s :: post) ∧
    (Event.fstat none ∉ (startup role env p).proc.trace →
      ∃ b, Event.mmap b ∈ (startup role env p).proc.trace) := by
  have hs := setup_free_sizing role env p hp
  cases h0 : setup role env p with
  | running q => exact absurd h0 (setup_not_running role env p q)
  | killed s q => exact absurd h0 (setup_not_killed role env p q s)
  | exit c q =>
    have e : startup role env p = .exit c q := by simp [startup, h0, Res.bind]
    rw [h0] at hs
    rw [e] at hm
    exact absurd hm (not_mem_of_free hs rfl)
  | cont q0 =>
    rw [h0] at hs
    simp only [Res.proc] at hs
    cases h1 : open_and_size env q0 with
    | running q => exact absurd h1 (open_and_size_not_running env q0 q)
    | killed s q => exact absurd h1 (open_and_size_not_killed env q0 q s)
    | exit c q =>
      have e : startup role env p = .exit c q := by simp [startup, h0, h1, Res.bind]
      rw [e] at hm ⊢
      have := open_and_size_sizing env q0 n hs (by rw [h1]; exact hm)
      rw [h1] at this
      refine ⟨this.1, fun hno => ?_⟩
      obtain ⟨q', hq'⟩ := this.2 hno
      cases hq'
    | cont q1 =>
      have e : startup role env p = map_region env q1 := by simp [startup, h0, h1, Res.bind]
      rw [e] at hm ⊢
      obtain ⟨b, u, ht, hu⟩ := map_region_trace env q1
      rw [ht] at hm ⊢
      have hm1 : Event.ftruncate (some n) ∈ q1.trace := by
        rcases List.mem_append.1 hm with h | h
        · exact h
        · exact absurd h (not_mem_of_free hu rfl)
      have := open_and_size_sizing env q0 n hs (by rw [h1]; exact hm1)
      rw [h1] at this
      simp only [Res.proc] at this
      obtain ⟨pre, post, s, hq1⟩ := this.1
      refine ⟨⟨pre, post ++ Event.mmap b :: u, s, by rw [hq1]; simp⟩, fun _ => ⟨b, by simp⟩⟩

theorem startup_logs (role : Role) (env : Env) (p : Proc) :
    (role = .reader → env.signal_ok = false →
      Event.signal false ∈ (startup role env p).proc.trace) ∧
    (setup_ok role env → env.shm_open_ok = false →
      Event.shm_open false ∈ (startup role env p).proc.trace) ∧
    (setup_ok role env → env.shm_open_ok = true →
      (env.fstat_ok = false ∨ (p.obj.getD 0 = 0 ∧ env.refstat_ok = false)) →
      Event.fstat none ∈ (startup role env p).proc.trace) ∧
    (setup_ok role env → env.shm_open_ok = true → env.fstat_ok = true →
      (p.obj.getD 0 = 0 → env.refstat_ok = true) → env.mmap_ok = false →
      Event.mmap false ∈ (startup role env p).proc.trace) := by
  cases role with
  | reader =>
    by_cases h0 : env.signal_ok = true <;> by_cases h1 : env.shm_open_ok = true <;>
      by_cases h2 : env.fstat_ok = true <;> by_cases h3 : p.obj.getD 0 = 0 <;>
      by_cases h4 : env.refstat_ok = true <;> by_cases h6 : env.mmap_ok = true <;>
      cases h5 : env.ftruncate_err <;>
      simp [startup, setup, open_and_size, map_region, Proc.log, die, Res.bind, Res.proc,
        setup_ok, h0, h1, h2, h3, h4, h5, h6]
  | writer =>
    by_cases h0 : env.argc > 1 <;> by_cases h1 : env.shm_open_ok = true <;>
      by_cases h2 : env.fstat_ok = true <;> by_cases h3 : p.obj.getD 0 = 0 <;>
      by_cases h4 : env.refstat_ok = true <;> by_cases h6 : env.mmap_ok = true <;>
      cases h5 : env.ftruncate_err <;>
      simp [startup, setup, open_and_size, map_region, Proc.log, die, Res.bind, Res.proc,
        setup_ok, h0, h1, h2, h3, h4, h5, h6]

theorem open_and_size_unsized (env : Env) (p : Proc) (n : Nat)
    (hp : Free Event.isSizing p.trace)
    (hm : Event.ftruncate (some n) ∈ (open_and_size env p).proc.trace) :
    (open_and_size env p).proc.obj.getD 0 = 0 := by
  have hn : Event.ftruncate (some n) ∉ p.trace := not_mem_of_free hp rfl
  by_cases h1 : env.shm_open_ok = true <;> by_cases h2 : env.fstat_ok = true <;>
    by_cases h3 : p.obj.getD 0 = 0 <;> by_cases h4 : env.refstat_ok = true <;>
    cases h5 : env.ftruncate_err <;>
    simp [open_and_size, Proc.log, die, Res.proc, h1, h2, h3, h4, h5, hn] at hm ⊢

theorem map_region_obj (env : Env) (p : Proc) : (map_region env p).proc.obj = p.obj := by
  by_cases h : env.mmap_ok = true <;> simp [map_region, Proc.log, die, Res.proc, h]

theorem startup_unsized (role : Role) (env : Env) (p q : Proc) (n : Nat)
    (hp : Free Event.isSizing p.trace) (hs : startup role env p = .cont q)
    (hm : Event.ftruncate (some n) ∈ q.trace) : q.obj.getD 0 = 0 := by
  obtain ⟨p1, h1, h2⟩ := bind_eq_cont hs
  obtain ⟨p2, h3, h4⟩ := bind_eq_cont h2
  have f1 := setup_free_sizing role env p hp
  rw [h1] at f1
  simp only [Res.proc] at f1
  obtain ⟨b, u, ht, hu⟩ := map_region_trace env p2
  have ho := map_region_obj env p2
  rw [h4] at ht ho
  simp only [Res.proc] at ht ho
  have hm2 : Event.ftruncate (some n) ∈ p2.trace := by
    rw [ht] at hm
    rcases List.mem_append.1 hm with h | h
    · exact h
    · exact absurd h (not_mem_of_free hu rfl)
  have := open_and_size_unsized env p1 n f1 (by rw [h3]; exact hm2)
  rw [h3] at this
  rw [ho]
  exact this

theorem iteration_unsized (role : Role) (env : Env) (p : Proc) (hm : p.mapped = true)
    (hz : p.obj.getD 0 = 0) (hp : env.peer_sizes p.jobs = false) :
    ∃ s q, iteration (do_job role env) p = .killed s q ∧
      (s = .SIGBUS ∨ (role = .writer ∧ s = .SIGUSR1)) := by
  cases role with
  | reader =>
    simp [iteration, do_job, check, peer_sizing, Proc.access, Proc.log, Res.bind, hm, hz, hp]
  | writer =>
    rcases h : scanf_s p.stdin with ⟨_ | tok, rest⟩
    · by_cases hk : kill_self env p.reader_pid = true <;>
        simp [iteration, do_job, scanf_data, kill_reader, check, peer_sizing, Proc.access,
          Proc.log, Res.bind, hm, hz, hp, h, hk]
    · simp [iteration, do_job, scanf_data, kill_reader, check, peer_sizing, Proc.access,
        Proc.log, Res.bind, hm, hz, hp, h]

theorem release_logs (env : Env) (p : Proc) :
    (env.munmap_ok = false →
      Event.munmap false ∈ ((unmap env p).bind fun p => destroy env p).proc.trace) ∧
    (env.munmap_ok = true → ∀ e, env.shm_unlink_err = some e →
      Event.shm_unlink (some e) ∈ ((unmap env p).bind fun p => destroy env p).proc.trace) := by
  by_cases hm : env.munmap_ok = true
  · cases hu : env.shm_unlink_err with
    | none => simp [unmap, destroy, die, Res.bind, Res.proc, Proc.log, hm, hu]
    | some e =>
      by_cases he : e = ENOENT <;>
        simp [unmap, destroy, die, Res.bind, Res.proc, Proc.log, hm, hu, he]
  · simp [unmap, destroy, die, Res.bind, Res.proc, Proc.log, hm]

theorem main_of_startup_exit (fuel : Nat) (role : Role) (env : Env) (p : Proc)
    (h : ∀ q, startup role env p ≠ .cont q) :
    main fuel role env p = startup role env p := by
  cases hs : startup role env p with
  | cont q => exact absurd hs (h q)
  | exit c q => simp [main, hs, Res.bind]
  | running q => simp [main, hs, Res.bind]
  | killed s q => simp [main, hs, Res.bind]

theorem startup_trace_sub (fuel : Nat) (role : Role) (env : Env) (p : Proc) (e : Event)
    (h : e ∈ (startup role env p).proc.trace) : e ∈ (main fuel role env p).proc.trace := by
  obtain ⟨rest, ht, _⟩ := main_trace_ext fuel role env p
  rw [ht]
  exact List.mem_append.2 (Or.inl h)

/-- C8, amended (propagation policy).  On every run of either role: a failed `signal`,
`shm_open`, `fstat`, `mmap`, `munmap`, or `shm_unlink` with an `errno` other than `ENOENT`,
is the first such failure, the process exits with a nonzero status, and nothing follows the
call but the `ERROR:` line (after a failed `mmap`, `close(fd)` and the line); and each of
these calls that fails by the call results where the run reaches it is in the trace.  No
other failure aborts: a run that exits and whose failed calls are all among `kill`, `scanf`
at end of input and `shm_unlink` with `ENOENT` exits with 0 (unless the writer lacks its
argument).  After a failed `ftruncate` come the warning and the second `fstat`, and unless
an `fstat` fails the `mmap` is attempted; the mapped object is then still empty, and unless
the other process sizes it during the first job, the process does not exit: it is killed in
its first iteration, by `SIGBUS` at the first access of the buffer or, the writer, by its own
`SIGUSR1` before that. -/
theorem propagation_policy (fuel : Nat) (role : Role) (env : Env) (obj : Option Nat)
    (mem : Mem) (inp : List Nat) :
    (∀ pre e post,
      (main fuel role env (Proc.start obj mem inp)).proc.trace = pre ++ e :: post →
      e.fatal = true →
      ∃ c msg, (main fuel role env (Proc.start obj mem inp)).code = some c ∧ c ≠ 0 ∧
        (∀ x ∈ pre, x.fatal = false) ∧
        (post = [.printf (error_line msg)] ∨
          (e = .mmap false ∧ post = [.close, .printf (error_line msg)]))) ∧
    ((role = .reader → env.signal_ok = false →
        Event.signal false ∈ (main fuel role env (Proc.start obj mem inp)).proc.trace) ∧
      (setup_ok role env → env.shm_open_ok = false →
        Event.shm_open false ∈ (main fuel role env (Proc.start obj mem inp)).proc.trace) ∧
      (setup_ok role env → env.shm_open_ok = true →
        (env.fstat_ok = false ∨ (obj.getD 0 = 0 ∧ env.refstat_ok = false)) →
        Event.fstat none ∈ (main fuel role env (Proc.start obj mem inp)).proc.trace) ∧
      (setup_ok role env → env.shm_open_ok = true → env.fstat_ok = true →
        (obj.getD 0 = 0 → env.refstat_ok = true) → env.mmap_ok = false →
        Event.mmap false ∈ (main fuel role env (Proc.start obj mem inp)).proc.trace) ∧
      (∀ p1 p2, startup role env (Proc.start obj mem inp) = .cont p1 →
        run_loop (do_job role env) fuel p1 = .cont p2 →
        (env.munmap_ok = false →
          Event.munmap false ∈ (main fuel role env (Proc.start obj mem inp)).proc.trace) ∧
        (env.munmap_ok = true → ∀ e, env.shm_unlink_err = some e →
          Event.shm_unlink (some e)
            ∈ (main fuel role env (Proc.start obj mem inp)).proc.trace))) ∧
    (∀ c, (main fuel role env (Proc.start obj mem inp)).code = some c →
      (∀ x ∈ (main fuel role env (Proc.start obj mem inp)).proc.trace,
        x.failed = true → x.tolerated = true) →
      ¬ (role = .writer ∧ env.argc ≤ 1) → c = 0) ∧
    (∀ n, Event.ftruncate (some n) ∈ (main fuel role env (Proc.start obj mem inp)).proc.trace →
      (∃ pre post s, (main fuel role env (Proc.start obj mem inp)).proc.trace
        = pre ++ Event.ftruncate (some n) :: Event.printf (sizing_warning n) ::
            Event.fstat s :: post) ∧
      (Event.fstat none ∉ (main fuel role env (Proc.start obj mem inp)).proc.trace →
        ∃ b, Event.mmap b ∈ (main fuel role env (Proc.start obj mem inp)).proc.trace) ∧
      (∀ p1, startup role env (Proc.start obj mem inp) = .cont p1 →
        env.peer_sizes 0 = false → 0 < fuel →
        ∃ s q, main fuel role env (Proc.start obj mem inp) = .killed s q ∧
          (s = .SIGBUS ∨ (role = .writer ∧ s = .SIGUSR1)))) := by
  have ho := outcome_main fuel role env (Proc.start obj mem inp) (by simp [Proc.start])
  refine ⟨?_, ?_, ?_, ?_⟩
  · intro pre e post ht he
    have hmem : e ∈ (main fuel role env (Proc.start obj mem inp)).proc.trace := by
      rw [ht]; simp
    cases hr : main fuel role env (Proc.start obj mem inp) with
    | cont q =>
      rw [hr] at ho hmem
      have := ho.1 e hmem
      simp [he] at this
    | running q =>
      rw [hr] at ho hmem
      have := ho.1 e hmem
      simp [he] at this
    | killed s q =>
      rw [hr] at ho hmem
      have := ho.1 e hmem
      simp [he] at this
    | exit c q =>
      rw [hr] at ho hmem ht
      simp only [Res.proc] at hmem ht
      rcases ho with ⟨hcl, _⟩ | ⟨hab, _⟩
      · have := hcl e hmem
        simp [he] at this
      · obtain ⟨hc, hpre, msg, hpost⟩ := aborted_at hab ht he
        exact ⟨c, msg, rfl, hc, hpre, hpost⟩
  · obtain ⟨l10, l1, l2, l3⟩ := startup_logs role env (Proc.start obj mem inp)
    have hobj : (Proc.start obj mem inp).obj = obj := rfl
    rw [hobj] at l2 l3
    refine ⟨fun a b => startup_trace_sub fuel _ _ _ _ (l10 a b),
      fun a b => startup_trace_sub fuel _ _ _ _ (l1 a b),
      fun a b c => startup_trace_sub fuel _ _ _ _ (l2 a b c),
      fun a b c d e => startup_trace_sub fuel _ _ _ _ (l3 a b c d e), ?_⟩
    intro p1 p2 hs hl
    have hmain : main fuel role env (Proc.start obj mem inp)
        = (unmap env p2).bind fun p => destroy env p := by
      simp [main, hs, hl, Res.bind]
    rw [hmain]
    exact release_logs env p2
  · intro c hc htol hcfg
    have hcl : ∀ x ∈ (main fuel role env (Proc.start obj mem inp)).proc.trace,
        x.fatal = false := by
      intro x hx
      have := htol x hx
      cases x with
      | signal b => cases b <;> simp_all [Event.fatal, Event.failed, Event.tolerated]
      | shm_open b => cases b <;> simp_all [Event.fatal, Event.failed, Event.tolerated]
      | fstat s => cases s <;> simp_all [Event.fatal, Event.failed, Event.tolerated]
      | mmap b => cases b <;> simp_all [Event.fatal, Event.failed, Event.tolerated]
      | munmap b => cases b <;> simp_all [Event.fatal, Event.failed, Event.tolerated]
      | shm_unlink s => cases s <;> simp_all [Event.fatal, Event.failed, Event.tolerated]
      | _ => rfl
    cases hr : main fuel role env (Proc.start obj mem inp) with
    | cont q => rw [hr] at hc; simp [Res.code] at hc
    | running q => rw [hr] at hc; simp [Res.code] at hc
    | killed s q => rw [hr] at hc; simp [Res.code] at hc
    | exit c' q =>
      rw [hr] at ho hc hcl
      simp only [Res.code, Option.some.injEq] at hc
      subst hc
      exact (taxonomy_of_outcome role env c' q ho).2.2.2.2.2.2.2.2 ⟨hcl, hcfg⟩
  · intro n hm
    obtain ⟨rest, ht, hrest⟩ := main_trace_ext fuel role env (Proc.start obj mem inp)
    have hfree : Free Event.isSizing rest := by
      intro x hx
      rcases hrest x hx with h | h | ⟨o, h⟩
      · cases x <;> simp [Event.isJob] at h <;> rfl
      · cases x <;> simp [Event.isRelease] at h <;> rfl
      · subst h; rfl
    have hm1 : Event.ftruncate (some n)
        ∈ (startup role env (Proc.start obj mem inp)).proc.trace := by
      rw [ht] at hm
      rcases List.mem_append.1 hm with h | h
      · exact h
      · exact absurd h (not_mem_of_free hfree rfl)
    obtain ⟨⟨pre, post, s, hq⟩, hmap⟩ :=
      startup_sizing role env (Proc.start obj mem inp) n (by simp [Proc.start]) hm1
    refine ⟨⟨pre, post ++ rest, s, by rw [ht, hq]; simp⟩, fun hno => ?_, ?_⟩
    · rw [ht] at hno ⊢
      obtain ⟨b, hb⟩ := hmap (fun h => hno (List.mem_append.2 (Or.inl h)))
      exact ⟨b, List.mem_append.2 (Or.inl hb)⟩
    · intro p1 hs hpeer hfuel
      have hz := startup_unsized role env (Proc.start obj mem inp) p1 n
        (by simp [Proc.start]) hs (by rw [hs] at hm1; exact hm1)
      have hj := (startup_frame role env (Proc.start obj mem inp)).1
      rw [hs] at hj
      simp only [Res.proc] at hj
      have hj0 : p1.jobs = 0 := hj
      obtain ⟨s, q, hi, hsig⟩ := iteration_unsized role env p1
        (startup_mapped role env _ p1 hs) hz (by rw [hj0]; exact hpeer)
      obtain ⟨m, rfl⟩ : ∃ m, fuel = m + 1 := ⟨fuel - 1, by omega⟩
      exact ⟨s, q, by simp [main, hs, run_loop, hi, Res.bind], hsig⟩

/-- C8, counterexample: in this writer run `kill` fails, yet the process goes on to the
sentinel test, `munmap` and `shm_unlink` and exits with status 0.  In a second run, on an
object that holds `"q"` from an earlier run and without operator input, `scanf` fails at
the end of input, `kill` fails and `shm_unlink` fails with `ENOENT`, and the process exits
with status 0 as well. -/
theorem kill_failure_counterexample :
    (main 1 .writer env_kill_fails (Proc.start none [] (bytes "q\n"))).proc.trace
      = [.printf (bytes "42\n"), .shm_open true, .fstat (some 0), .ftruncate none,
         .fstat (some 255), .printf (bytes "Shared object size: 255\n"), .mmap true, .close,
         .scanf 2, .kill 42 false, .strcmp 0, .munmap true, .shm_unlink none] ∧
    (main 1 .writer env_kill_fails (Proc.start none [] (bytes "q\n"))).code = some 0 ∧
    (main 1 .writer { env_kill_fails with shm_unlink_err := some ENOENT }
        (Proc.start (some 255) (bytes "q") [])).proc.trace
      = [.printf (bytes "42\n"), .shm_open true, .fstat (some 255),
         .printf (bytes "Shared object size: 255\n"), .mmap true, .close,
         .scanf 0, .kill 42 false, .strcmp 0, .munmap true, .shm_unlink (some ENOENT)] ∧
    (main 1 .writer { env_kill_fails with shm_unlink_err := some ENOENT }
        (Proc.start (some 255) (bytes "q") [])).code = some 0 := by
  decide

/-- A reader whose `ftruncate` fails with `errno = 22` still reaches the `mmap`, and is then
killed at the first test of the buffer. -/
theorem propagation_policy_witness :
    Event.ftruncate (some 22)
      ∈ (main 3 .reader env_sizing_fails (Proc.start none [] [])).proc.trace ∧
    Event.fstat none ∉ (main 3 .reader env_sizing_fails (Proc.start none [] [])).proc.trace ∧
    (∃ b, Event.mmap b ∈ (main 3 .reader env_sizing_fails (Proc.start none [] [])).proc.trace) ∧
    ∃ s q, main 3 .reader env_sizing_fails (Proc.start none [] []) = .killed s q ∧
      (s = .SIGBUS ∨ ((Role.reader = .writer) ∧ s = .SIGUSR1)) :=
  ⟨by decide, by decide,
    ((propagation_policy 3 .reader env_sizing_fails none [] []).2.2.2 22 (by decide)).2.1
      (by decide),
    ((propagation_policy 3 .reader env_sizing_fails none [] []).2.2.2 22 (by decide)).2.2
      (startup .reader env_sizing_fails (Proc.start none [] [])).proc rfl rfl (by decide)⟩

/-- A writer that types `"hi"` and `"q"` and whose `shm_unlink` fails with `ENOENT` exits
with status 0. -/
theorem destroy_tolerance_witness :
    (main 2 .writer { env_ok with shm_unlink_err := some ENOENT }
      (Proc.start none [] (bytes "hi q\n"))).code = some 0 :=
  ((destroy_tolerance.1 2 .writer { env_ok with shm_unlink_err := some ENOENT }
    (Proc.start none [] (bytes "hi q\n"))
    (startup .writer { env_ok with shm_unlink_err := some ENOENT }
      (Proc.start none [] (bytes "hi q\n"))).proc
    (run_loop (do_job .writer { env_ok with shm_unlink_err := some ENOENT }) 2
      (startup .writer { env_ok with shm_unlink_err := some ENOENT }
        (Proc.start none [] (bytes "hi q\n"))).proc).proc
    rfl rfl rfl).1 (Or.inr rfl))

/-- The object created by a first process keeps its 255 bytes when two more processes
open it, one of them with a failing `ftruncate`. -/
theorem idempotent_creation_witness :
    Event.ftruncate none ∈ (open_and_size env_ok (Proc.start none [] [])).added
      (Proc.start none [] []) ∧
    reopen (open_and_size env_ok (Proc.start none [] [])).proc.obj [env_ok, env_sizing_fails]
      = some SHARED_OBJ_SIZE :=
  ⟨by decide,
    (idempotent_creation.2.2 env_ok (Proc.start none [] []) [env_ok, env_sizing_fails]
      (by decide)).2⟩

/-- C4, counterexample: status 2 has two failure sites, and a run need not exit.  A reader
whose first `fstat` (line 36) fails and a reader whose second `fstat` (line 42) fails both
exit with 2, after different calls.  A writer started with the argument `"0"` sends
`SIGUSR1` to its own process group and is killed by it: no call of this run has failed, and
it has no exit status. -/
theorem exit_status_counterexample :
    (main 1 .reader { env_ok with fstat_ok := false } (Proc.start none [] [])).code = some 2 ∧
    (main 1 .reader { env_ok with fstat_ok := false } (Proc.start none [] [])).added
        (Proc.start none [] [])
      = [.printf (bytes "My PID: 7\n"), .signal true, .shm_open true, .fstat none,
         .printf (bytes "ERROR: Failed to check shared object size\n")] ∧
    (main 1 .reader { env_ok with refstat_ok := false } (Proc.start none [] [])).code = some 2 ∧
    (main 1 .reader { env_ok with refstat_ok := false } (Proc.start none [] [])).added
        (Proc.start none [] [])
      = [.printf (bytes "My PID: 7\n"), .signal true, .shm_open true, .fstat (some 0),
         .ftruncate none, .fstat none,
         .printf (bytes "ERROR: Failed to check shared object size\n")] ∧
    atoi (bytes "0") = 0 ∧ kill_self env_ok 0 = true ∧
    main 1 .writer { env_ok with argv1 := bytes "0" } (Proc.start none [] (bytes "hi\n"))
      = .killed .SIGUSR1
        (main 1 .writer { env_ok with argv1 := bytes "0" } (Proc.start none [] (bytes "hi\n"))).proc ∧
    (∀ x ∈ (main 1 .writer { env_ok with argv1 := bytes "0" }
        (Proc.start none [] (bytes "hi\n"))).proc.trace, x.failed = false) ∧
    (main 1 .writer { env_ok with argv1 := bytes "0" } (Proc.start none [] (bytes "hi\n"))).code
      ≠ some 0 := by
  decide

/-- A reader whose `mmap` fails exits with status 3 and its trace holds the failed call. -/
theorem exit_code_taxonomy_witness :
    setup_ok .reader { env_ok with mmap_ok := false } ∧
    (main 3 .reader { env_ok with mmap_ok := false } (Proc.start none [] [])).code = some 3 ∧
    Event.mmap false
      ∈ (main 3 .reader { env_ok with mmap_ok := false } (Proc.start none [] [])).proc.trace :=
  ⟨⟨by decide, by decide⟩,
    (exit_code_taxonomy .reader { env_ok with mmap_ok := false } none [] []).2.2.2.2.2.1
      ⟨by decide, by decide⟩ rfl rfl (by decide) rfl 3,
    ((exit_code_taxonomy .reader { env_ok with mmap_ok := false } none [] []).2.2.2.2.2.2.2.2.1
      3 3 _ rfl).2.2.1.1 rfl⟩

/-! ## Runs as paths of the transition system -/

theorem loop_steps (role : Role) (env : Env) :
    ∀ (fuel : Nat) (q1 : Proc), (∀ q, run_loop (do_job role env) fuel q1 ≠ .running q) →
      Relation.ReflTransGen (Step role env) (.loop, q1)
        ((run_loop (do_job role env) fuel q1).goto .unmap) := by
  intro fuel
  induction fuel with
  | zero => intro q1 h; exact absurd rfl (h q1)
  | succ n ih =>
    intro q1 h
    cases hi : iteration (do_job role env) q1 with
    | cont q =>
      by_cases hq : strcmp q.data sentinel = 0
      · have e : run_loop (do_job role env) (n + 1) q1 = .cont q := by
          simp [run_loop, hi, hq]
        rw [e]
        exact Relation.ReflTransGen.single (Step.flow (by simp [flow, hi, hq, Res.goto]))
      · have e : run_loop (do_job role env) (n + 1) q1 = run_loop (do_job role env) n q := by
          simp [run_loop, hi, hq]
        rw [e] at h ⊢
        exact Relation.ReflTransGen.head (Step.flow (by simp [flow, hi, hq])) (ih q h)
    | exit c q =>
      have e : run_loop (do_job role env) (n + 1) q1 = .exit c q := by simp [run_loop, hi]
      rw [e]
      exact Relation.ReflTransGen.single (Step.flow (by simp [flow, hi, Res.goto]))
    | running q =>
      have e : run_loop (do_job role env) (n + 1) q1 = .running q := by simp [run_loop, hi]
      exact absurd e (h q)
    | killed s q =>
      have e : run_loop (do_job role env) (n + 1) q1 = .killed s q := by simp [run_loop, hi]
      rw [e]
      exact Relation.ReflTransGen.single (Step.flow (by simp [flow, hi, Res.goto]))

/-- Every run of `main` that ends, with an exit status or by a signal, is a sequence of
main-flow steps of the transition system that ends in the same way and in the same state. -/
theorem main_steps (fuel : Nat) (role : Role) (env : Env) (p : Proc)
    (h : ∀ q, main fuel role env p ≠ .running q) :
    Relation.ReflTransGen (Step role env) (.setup, p)
      ((main fuel role env p).goto (.exited 0)) := by
  have s0 : Step role env (.setup, p) ((setup role env p).goto .open_and_size) :=
    Step.flow rfl
  cases h0 : setup role env p with
  | running q => exact absurd h0 (setup_not_running role env p q)
  | killed s q => exact absurd h0 (setup_not_killed role env p q s)
  | exit c q =>
    have e : main fuel role env p = .exit c q := by simp [main, startup, h0, Res.bind]
    rw [e]; rw [h0] at s0
    exact Relation.ReflTransGen.single s0
  | cont q0 =>
    rw [h0] at s0
    refine Relation.ReflTransGen.head s0 ?_
    simp only [Res.goto]
    have s1 : Step role env (.open_and_size, q0) ((open_and_size env q0).goto .map_region) :=
      Step.flow rfl
    cases h1 : open_and_size env q0 with
    | running q => exact absurd h1 (open_and_size_not_running env q0 q)
    | killed s q => exact absurd h1 (open_and_size_not_killed env q0 q s)
    | exit c q =>
      have e : main fuel role env p = .exit c q := by simp [main, startup, h0, h1, Res.bind]
      rw [e]; rw [h1] at s1
      exact Relation.ReflTransGen.single s1
    | cont q1 =>
      rw [h1] at s1
      refine Relation.ReflTransGen.head s1 ?_
      simp only [Res.goto]
      have s2 : Step role env (.map_region, q1) ((map_region env q1).goto .loop) :=
        Step.flow rfl
      cases h2 : map_region env q1 with
      | running q => exact absurd h2 (map_region_not_running env q1 q)
      | killed s q => exact absurd h2 (map_region_not_killed env q1 q s)
      | exit c q =>
        have e : main fuel role env p = .exit c q := by
          simp [main, startup, h0, h1, h2, Res.bind]
        rw [e]; rw [h2] at s2
        exact Relation.ReflTransGen.single s2
      | cont q2 =>
        rw [h2] at s2
        refine Relation.ReflTransGen.head s2 ?_
        simp only [Res.goto]
        have em : main fuel role env p
            = (run_loop (do_job role env) fuel q2).bind fun p =>
                (unmap env p).bind fun p => destroy env p := by
          simp [main, startup, h0, h1, h2, Res.bind]
        rw [em] at h ⊢
        have hl := loop_steps role env fuel q2
        cases h3 : run_loop (do_job role env) fuel q2 with
        | running q => rw [h3] at h; exact absurd rfl (h q)
        | exit c q => rw [h3] at hl; exact hl (by simp)
        | killed s q => rw [h3] at hl; exact hl (by simp)
        | cont q3 =>
          rw [h3] at hl
          refine Relation.ReflTransGen.trans (hl (by simp)) ?_
          simp only [Res.goto, Res.bind]
          have s4 : Step role env (.unmap, q3) ((unmap env q3).goto .destroy) := Step.flow rfl
          cases h4 : unmap env q3 with
          | running q => simp only [unmap, die] at h4; split_ifs at h4
          | killed s q => simp only [unmap, die] at h4; split_ifs at h4
          | exit c q => rw [h4] at s4; exact Relation.ReflTransGen.single s4
          | cont q4 =>
            rw [h4] at s4
            refine Relation.ReflTransGen.head s4 ?_
            exact Relation.ReflTransGen.single (Step.flow rfl)

/-- C9, evaluation at the failing input.  In the reader, `setup` installs the handler while
the region is not yet mapped, so a `SIGUSR1` delivered right after `setup` runs `print_data`,
which dereferences `data` outside the mapped window: the process is killed by `SIGSEGV`.
The same happens after `munmap`, where the handler is still installed. -/
theorem reader_handler_outside_window :
    Step .reader env_ok (.setup, Proc.start none [] [])
      (.open_and_size, (setup .reader env_ok (Proc.start none [] [])).proc) ∧
    (setup .reader env_ok (Proc.start none [] [])).proc.handler = true ∧
    (setup .reader env_ok (Proc.start none [] [])).proc.mapped = false ∧
    Step .reader env_ok (.open_and_size, (setup .reader env_ok (Proc.start none [] [])).proc)
      (.killed .SIGSEGV,
        (print_data env_ok (setup .reader env_ok (Proc.start none [] [])).proc).proc) ∧
    (print_data env_ok (setup .reader env_ok (Proc.start none [] [])).proc).proc.faults = 1 ∧
    Relation.ReflTransGen (Step .reader env_ok) (.setup, Proc.start none [] [])
      (.destroy, (unmap env_ok (run_loop (do_job .reader env_ok) 3
        (startup .reader env_ok (Proc.start none [] [])).proc).proc).proc) ∧
    (unmap env_ok (run_loop (do_job .reader env_ok) 3
      (startup .reader env_ok (Proc.start none [] [])).proc).proc).proc.handler = true ∧
    (unmap env_ok (run_loop (do_job .reader env_ok) 3
      (startup .reader env_ok (Proc.start none [] [])).proc).proc).proc.mapped = false ∧
    Step .reader env_ok
      (.destroy, (unmap env_ok (run_loop (do_job .reader env_ok) 3
        (startup .reader env_ok (Proc.start none [] [])).proc).proc).proc)
      (.killed .SIGSEGV, (print_data env_ok (unmap env_ok (run_loop (do_job .reader env_ok) 3
        (startup .reader env_ok (Proc.start none [] [])).proc).proc).proc).proc) ∧
    (print_data env_ok (unmap env_ok (run_loop (do_job .reader env_ok) 3
      (startup .reader env_ok (Proc.start none [] [])).proc).proc).proc).proc.faults = 1 :=
  ⟨Step.flow rfl, rfl, rfl, Step.sigusr1 rfl rfl, rfl,
    Relation.ReflTransGen.head (Step.flow rfl) <|
    Relation.ReflTransGen.head (Step.flow rfl) <|
    Relation.ReflTransGen.head (Step.flow rfl) <|
    Relation.ReflTransGen.head (Step.flow rfl) <|
    Relation.ReflTransGen.head (Step.flow rfl) <|
    Relation.ReflTransGen.head (Step.flow rfl) <|
    Relation.ReflTransGen.single (Step.flow rfl),
    rfl, rfl, Step.sigusr1 rfl rfl, rfl⟩

end SharedMem
